import Mathlib

/-!
Shallow embedding of the kconfig session-local kubeconfig synthesis engine.

Sources embedded:
* config/kconfig.go : constants, Kconfig/KconfigPreferences/KconfigOptions,
  lookupKconfigNickname, parseNicknameDefinition, CreateLocalKubectlConfigFile,
  GetExistingSessionLocalFilename, createSessionKubeconfigFile
* config/kubeconfig.go : ReadKubeConfig
* cmd/kconfig-util/koff.go : koffProcessor

The filesystem is modelled as an association list from path names to parsed
kubeconfig file contents; the process environment is modelled by the value of
the KUBECONFIG variable (an Option String, none meaning unset).  OS-level I/O
failures (unreadable files, mkdir failures, Setenv failures) are outside the
model, except for the os.Remove failure in koffProcessor, which is modelled by
an explicit oracle because the surrounding control flow is the subject of a
claim.  The random component of os.CreateTemp is modelled by an explicit
tempName argument.
-/

/-- The OS path-list separator (os.PathListSeparator).  The model fixes the Unix
value ':' since the tool is built for linux and darwin only (see the Makefile). -/
def pathListSeparator : Char := ':'

/-- Value of os.TempDir() as fixed by the model (the usual Unix value). -/
def tempDir : String := "/tmp"

/-- From config/kconfig.go: filepath.Join(os.TempDir(), "kconfig", "session"). -/
def kconfigTmpSessionDir : String := tempDir ++ "/kconfig/session"

/-- From config/kconfig.go: filepath.Join(os.TempDir(), "kconfig", "nicks"). -/
def kconfigTmpNicknameDir : String := tempDir ++ "/kconfig/nicks"

/-- The fixed synthetic context name from config/kconfig.go. -/
def kconfigContextName : String := "kconfig_context"

/-- Go strings.HasPrefix, on the underlying character lists. -/
def strHasPrefix (s pre : String) : Bool := pre.data.isPrefixOf s.data

/-- One entry of the Contexts map of a clientcmdapi.Config.  The Namespace field
is called nspace here because namespace is a Lean keyword.  LocationOfOrigin is
the load-time metadata recording which file the entry came from. -/
structure Context where
  cluster : String := ""
  authInfo : String := ""
  nspace : String := ""
  locationOfOrigin : String := ""
deriving Repr, DecidableEq

/-- The parts of clientcmdapi.Config that the synthesizer reads or writes:
CurrentContext and the Contexts map (as an association list; first binding of a
key wins, matching the merge semantics of clientcmd).  Clusters and AuthInfos
are never populated nor consulted by the synthesizer and are omitted. -/
structure KubeConfig where
  currentContext : String := ""
  contexts : List (String × Context) := []
deriving Repr, DecidableEq

/-- First-match association-list lookup (Go map read, for maps built so that the
first binding is the authoritative one). -/
def lookupAssoc {α : Type} : List (String × α) → String → Option α
  | [], _ => none
  | (k, v) :: rest, key => if k = key then some v else lookupAssoc rest key

/-- Replace the first binding of a key, or append a new binding (Go map write). -/
def upsertAssoc {α : Type} : List (String × α) → String → α → List (String × α)
  | [], key, v => [(key, v)]
  | (k, w) :: rest, key, v =>
      if k = key then (key, v) :: rest else (k, w) :: upsertAssoc rest key v

/-- The filesystem: paths of parsed kubeconfig files. -/
abbrev FS := List (String × KubeConfig)

/-- Read a file (none when the path does not exist). -/
def lookupFS (fs : FS) (p : String) : Option KubeConfig := lookupAssoc fs p

/-- Create or replace a file. -/
def writeFS (fs : FS) (p : String) (c : KubeConfig) : FS := upsertAssoc fs p c

/-- Delete a file (os.Remove; removing a missing file is a no-op, matching the
ErrNotExist case being ignored by the callers in this repository). -/
def removeFS : FS → String → FS
  | [], _ => []
  | (k, v) :: rest, p => if k = p then removeFS rest p else (k, v) :: removeFS rest p

/-- Split a character list on a separator character. -/
def splitListAux (sep : Char) (cur : List Char) : List Char → List (List Char)
  | [] => [cur.reverse]
  | c :: cs =>
      if c = sep then cur.reverse :: splitListAux sep [] cs
      else splitListAux sep (c :: cur) cs

/-- filepath.SplitList as used by the clientcmd loading rules: split the
KUBECONFIG value on the path-list separator; empty entries are skipped by the
loader. -/
def splitSearchPath (s : String) : List String :=
  ((splitListAux pathListSeparator [] s.data).map fun l => (⟨l⟩ : String)).filter
    fun p => decide (p ≠ "")

/-- When a file is loaded, clientcmd stamps every map entry with the file it
came from (LocationOfOrigin). -/
def stampOrigins (path : String) (c : KubeConfig) : KubeConfig :=
  { c with contexts := c.contexts.map fun kv => (kv.1, { kv.2 with locationOfOrigin := path }) }

/-- Merge two loaded configs; the first argument (the earlier file on the search
path) wins: the first file to set a value or map key wins, per clientcmd. -/
def mergeTwo (a b : KubeConfig) : KubeConfig :=
  { currentContext := if a.currentContext ≠ "" then a.currentContext else b.currentContext
    contexts := a.contexts ++ b.contexts }

/-- The list of files the clientcmd loader consults: the entries of the
KUBECONFIG value when it is non-empty, else the single default file
HOME/.kube/config. -/
def resolvedPaths (homeDir : String) (searchPath : String) : List String :=
  if searchPath = "" then [homeDir ++ "/.kube/config"] else splitSearchPath searchPath

/-- The clientcmd loading rules: load every existing file on the search path
(missing files are skipped), stamp origins, and merge earlier-wins. -/
def loadConfig (homeDir : String) (fs : FS) (searchPath : String) : KubeConfig :=
  ((resolvedPaths homeDir searchPath).filterMap
    fun p => (lookupFS fs p).map (stampOrigins p)).foldr mergeTwo {}

/-- ReadKubeConfig from config/kubeconfig.go: read the kubectl configuration
using the default clientcmd search path, as modified by the current KUBECONFIG
environment variable value (unset and empty are equivalent for clientcmd).
I/O and parse errors exit the process and are outside the model. -/
def ReadKubeConfig (homeDir : String) (fs : FS) (env : Option String) : KubeConfig :=
  loadConfig homeDir fs (env.getD "")

/-- GetExistingSessionLocalFilename from config/kconfig.go: if the first entry
of the passed KUBECONFIG value refers to a session-local config file (the value
starts with the session temp directory), return that first entry, else "". -/
def GetExistingSessionLocalFilename (kubeconfigEnvVar : String) : String :=
  if kubeconfigEnvVar = "" || !strHasPrefix kubeconfigEnvVar kconfigTmpSessionDir then ""
  else ⟨kubeconfigEnvVar.data.takeWhile fun c => decide (c ≠ pathListSeparator)⟩

/-- KconfigPreferences from config/kconfig.go (the kconfig.yaml preferences).
Unset string fields are the empty string, as for Go zero values. -/
structure KconfigPreferences where
  defaultKubectl : String := ""
  changePrompt : Option Bool := none
  showOverridesInPrompt : Option Bool := none
  readKaliasConfig : Bool := false
  baseKubeconfig : String := ""
deriving Repr, DecidableEq

/-- Kconfig from config/kconfig.go: the parsed ~/.kube/kconfig.yaml file
(preferences plus the nickname map, as an association list). -/
structure Kconfig where
  preferences : KconfigPreferences := {}
  nicknames : List (String × String) := []
deriving Repr, DecidableEq

/-- KconfigOptions from config/kconfig.go: the options allowed in a nickname
definition, also used for kset command-line overrides.  Unset fields are "". -/
structure KconfigOptions where
  kubeConfig : String := ""
  context : String := ""
  nspace : String := ""
  user : String := ""
deriving Repr, DecidableEq

/-- Modelled interface of shlex.Split (external google/shlex library; the spec
says nickname definitions are parsed from a shell-like quoted string).  The
model covers unquoted definitions, for which shell-like splitting is splitting
on runs of spaces; quoting, escaping and their error cases are not modelled. -/
def shlexSplit (s : String) : List String :=
  ((splitListAux ' ' [] s.data).map fun l => (⟨l⟩ : String)).filter
    fun t => decide (t ≠ "")

/-- Split a command-line token at its first '=', go-flags style. -/
def splitAtEq (s : String) : String × Option String :=
  match s.data.dropWhile fun c => decide (c ≠ '=') with
  | [] => (⟨s.data.takeWhile fun c => decide (c ≠ '=')⟩, none)
  | _ :: rest => (⟨s.data.takeWhile fun c => decide (c ≠ '=')⟩, some ⟨rest⟩)

/-- The flag names declared by the KconfigOptions struct tags. -/
def isKnownFlag (name : String) : Bool :=
  name = "--kubeconfig" || name = "--context" || name = "--namespace" || name = "-n" ||
    name = "--user"

/-- Store a recognized flag value in the matching KconfigOptions field. -/
def setOpt (opts : KconfigOptions) (name value : String) : KconfigOptions :=
  if name = "--kubeconfig" then { opts with kubeConfig := value }
  else if name = "--context" then { opts with context := value }
  else if name = "--namespace" || name = "-n" then { opts with nspace := value }
  else { opts with user := value }

/-- Modelled interface of flags.ParseArgs (external go-flags library) for the
KconfigOptions struct: each declared flag takes a value, given either as
flag=value or as the following token; any other token starting with '-' is an
unknown-flag error; remaining tokens are collected as positional arguments. -/
def parseArgs (opts : KconfigOptions) : List String → Except String (KconfigOptions × List String)
  | [] => .ok (opts, [])
  | arg :: rest =>
      let name := (splitAtEq arg).1
      if isKnownFlag name then
        match (splitAtEq arg).2, rest with
        | some v, r => parseArgs (setOpt opts name v) r
        | none, v :: rest2 => parseArgs (setOpt opts name v) rest2
        | none, [] => .error ("expected argument for flag `" ++ name ++ "'")
      else if strHasPrefix arg "-" && arg != "-" then
        .error ("unknown flag `" ++ name ++ "'")
      else
        match parseArgs opts rest with
        | .error e => .error e
        | .ok (o, positionals) => .ok (o, arg :: positionals)

/-- parseNicknameDefinition from config/kconfig.go: determine the kubectl
executable (the default_kubectl preference, or "kubectl") possibly replaced by
a leading non-dash token of the definition, then parse the remaining tokens as
KconfigOptions.  Fatal errors (modelled as Except.error): empty specification,
flag-parse error, leftover positional arguments. -/
def parseNicknameDefinition (kconfig : Kconfig) (definition : String) :
    Except String (KconfigOptions × String) :=
  let kubectlExecutable :=
    if kconfig.preferences.defaultKubectl = "" then "kubectl"
    else kconfig.preferences.defaultKubectl
  match shlexSplit definition with
  | [] => .error "The kconfig specification is empty"
  | first :: rest =>
      let picked :=
        if first.length > 0 && first.data.head? != some '-' then (first, rest)
        else (kubectlExecutable, first :: rest)
      match parseArgs {} picked.2 with
      | .error e => .error e
      | .ok (opts, positionals) =>
          if positionals.isEmpty then .ok (opts, picked.1)
          else .error ("The kconfig specification has unrecognized arguments: " ++
            String.intercalate " " positionals)

/-- lookupKconfigNickname from config/kconfig.go: look the nickname up in the
nickname map; a missing nickname is fatal. -/
def lookupKconfigNickname (kconfig : Kconfig) (nickname : String) : Except String String :=
  match lookupAssoc kconfig.nicknames nickname with
  | none => .error ("Nickname \"" ++ nickname ++ "\" is not defined.")
  | some defn => .ok defn

/-- The file a context entry is persisted to by clientcmd.ModifyConfig: its
LocationOfOrigin when set, else the destination (global) file. -/
def contextDestination (globalFile : String) (c : Context) : String :=
  if c.locationOfOrigin = "" then globalFile else c.locationOfOrigin

/-- Write one context entry into the config stored at a path, clearing the
load-time LocationOfOrigin metadata on the way out (it is never serialized). -/
def writeContextEntry (fs : FS) (path : String) (name : String) (c : Context) : FS :=
  let cfg := (lookupFS fs path).getD {}
  writeFS fs path
    { cfg with contexts := upsertAssoc cfg.contexts name { c with locationOfOrigin := "" } }

/-- clientcmd.ModifyConfig as invoked by CreateLocalKubectlConfigFile (external
client-go library, modelled at content level).  The ConfigAccess names a single
destination file (GlobalFile, with the env var ignored), so the starting config
is the current content of that file.  The current context is written to the
destination file; context entries of the starting config that are absent from
the new config are deleted from it; each context entry of the new config is
written to its LocationOfOrigin, or to the destination file when that is unset.
No-change short cuts of the library are dropped: they never change contents. -/
def ModifyConfig (globalFile : String) (newConfig : KubeConfig) (fs : FS) : FS :=
  let starting := (lookupFS fs globalFile).getD {}
  let kept := starting.contexts.filter fun kv => (lookupAssoc newConfig.contexts kv.1).isSome
  let fs1 := writeFS fs globalFile { currentContext := newConfig.currentContext, contexts := kept }
  newConfig.contexts.foldl
    (fun acc kv => writeContextEntry acc (contextDestination globalFile kv.2) kv.1 kv.2) fs1

/-- The values CreateLocalKubectlConfigFile returns on success, together with
the name of the local config file it wrote (exposed for specification). -/
structure CreateOk where
  newKubeconfigEnvVar : String
  kubectlExecutable : String
  overridesDescription : String
  localConfigFilename : String
deriving Repr, DecidableEq

/-- Either a successful return or a fatal exit (message printed on standard
error, process exit status 1). -/
inductive Outcome where
  | ok : CreateOk → Outcome
  | fatal : String → Outcome
deriving Repr, DecidableEq

/-- Result of a CreateLocalKubectlConfigFile invocation: the outcome plus the
final filesystem and the final value of the KUBECONFIG process environment
variable. -/
structure CreateResult where
  outcome : Outcome
  fs : FS
  env : Option String
deriving Repr, DecidableEq

/-- Lines 278-284 of config/kconfig.go: the search path used for reading the
base config.  Start from the base_kubeconfig preference; a --kubeconfig option
of the nickname definition replaces it; a --kubeconfig override replaces that.
The result may be empty, which asks for the default search path. -/
def effectiveSearchPath (kconfig : Kconfig) (nicknameOptions opts : KconfigOptions) : String :=
  let searchPath0 := kconfig.preferences.baseKubeconfig
  let searchPath1 :=
    if nicknameOptions.kubeConfig ≠ "" then nicknameOptions.kubeConfig else searchPath0
  if opts.kubeConfig ≠ "" then opts.kubeConfig else searchPath1

/-- Lines 307-315 of config/kconfig.go: the kubectl context to refer to.  Start
from the base file's current context; a --context option of the nickname
definition replaces it; a --context override replaces that. -/
def effectiveContextName (kubeconfig : KubeConfig) (nicknameOptions opts : KconfigOptions) :
    String :=
  let baseContext1 :=
    if nicknameOptions.context ≠ "" then nicknameOptions.context
    else kubeconfig.currentContext
  if opts.context ≠ "" then opts.context else baseContext1

/-- Lines 330-332 of config/kconfig.go: whether the new config file must define
a new context (rather than a bare current-context pointer) so that the
namespace or user can be overridden. -/
def needNewContext (nicknameOptions opts : KconfigOptions) : Prop :=
  nicknameOptions.nspace ≠ "" ∨ nicknameOptions.user ≠ "" ∨
    opts.nspace ≠ "" ∨ opts.user ≠ ""

instance (nicknameOptions opts : KconfigOptions) :
    Decidable (needNewContext nicknameOptions opts) :=
  inferInstanceAs (Decidable (nicknameOptions.nspace ≠ "" ∨ nicknameOptions.user ≠ "" ∨
    opts.nspace ≠ "" ∨ opts.user ≠ ""))

/-- Lines 340-363 of config/kconfig.go: deep-copy the referenced context,
clearing LocationOfOrigin so the change is not written back to the file where
the context is defined, then set the namespace and the user (nickname value
first, override second), collecting override descriptions along the way. -/
def newSessionContext (contextDefn : Context) (nicknameOptions opts : KconfigOptions) :
    Context × List String :=
  let c0 := { contextDefn with locationOfOrigin := "" }
  let c1 :=
    if nicknameOptions.nspace ≠ "" then { c0 with nspace := nicknameOptions.nspace } else c0
  let step2 :=
    if opts.nspace ≠ "" then ({ c1 with nspace := opts.nspace }, ["ns=" ++ opts.nspace])
    else (c1, ([] : List String))
  let c3 :=
    if nicknameOptions.user ≠ "" then { step2.1 with authInfo := nicknameOptions.user }
    else step2.1
  if opts.user ≠ "" then ({ c3 with authInfo := opts.user }, step2.2 ++ ["u=" ++ opts.user])
  else (c3, step2.2)

/-- Lines 334-368 of config/kconfig.go: the content of the session-local config
file, together with the override descriptions: either a bare current-context
pointer, or a new context stored under the fixed synthetic name and made the
current context. -/
def newConfigContent (baseContext : String) (contextDefn : Context)
    (nicknameOptions opts : KconfigOptions) : KubeConfig × List String :=
  if needNewContext nicknameOptions opts then
    let entry := newSessionContext contextDefn nicknameOptions opts
    ({ currentContext := kconfigContextName, contexts := [(kconfigContextName, entry.1)] },
      entry.2)
  else ({ currentContext := baseContext, contexts := [] }, [])

/-- Lines 370-390 of config/kconfig.go: the name of the local config file.  In
one-shot mode it is nickname.yaml under the nickname temp directory; in session
mode it is the session file already named by the incoming KUBECONFIG value, or
a freshly created random name under the session temp directory. -/
def localConfigTarget (sessionFile : Bool) (nickname kubeconfigEnvVar tempName : String) :
    String :=
  let existingName :=
    if sessionFile then GetExistingSessionLocalFilename kubeconfigEnvVar
    else kconfigTmpNicknameDir ++ "/" ++ nickname ++ ".yaml"
  if existingName = "" then kconfigTmpSessionDir ++ "/" ++ tempName ++ ".yaml"
  else existingName

/-- CreateLocalKubectlConfigFile from config/kconfig.go.  Creates or replaces a
local kubectl configuration file from the nickname definition and the override
options, returning the new KUBECONFIG value, the kubectl executable and a short
override description.  The explicit model arguments: homeDir is the user's home
directory, tempName the random component chosen by os.CreateTemp, env the
incoming KUBECONFIG variable, fs the filesystem.  OS failures of Setenv,
MkdirAll, CreateTemp and the config write are outside the model; both panic
branches (non-nil options without sessionFile, nil options with sessionFile)
are modelled as fatal outcomes. -/
def CreateLocalKubectlConfigFile (kconfig : Kconfig) (homeDir : String) (tempName : String)
    (nickname : String) (kconfigOptions : Option KconfigOptions) (sessionFile : Bool)
    (env : Option String) (fs : FS) : CreateResult :=
  let check : Except String KconfigOptions :=
    match sessionFile, kconfigOptions with
    | false, some _ =>
        .error "panic: Call to CreateLocalKubectlConfigFile specified a non-nil KconfigOptions"
    | false, none => .ok {}
    | true, some o => .ok o
    | true, none => .error "panic: runtime error: invalid memory address or nil pointer dereference"
  match check with
  | .error e => ⟨.fatal e, fs, env⟩
  | .ok opts =>
  match lookupKconfigNickname kconfig nickname with
  | .error e => ⟨.fatal e, fs, env⟩
  | .ok defn =>
  match parseNicknameDefinition kconfig defn with
  | .error e => ⟨.fatal e, fs, env⟩
  | .ok (nicknameOptions, kubectlExecutable) =>
    -- Fetch the current KUBECONFIG value before changing it.
    let kubeconfigEnvVar := env.getD ""
    let searchPath := effectiveSearchPath kconfig nicknameOptions opts
    -- os.Setenv("KUBECONFIG", searchPath), read the base config, then restore.
    let envDuringRead : Option String := some searchPath
    let kubeconfig := ReadKubeConfig homeDir fs envDuringRead
    let envRestored : Option String := if env.isSome then some kubeconfigEnvVar else none
    -- Figure out what kubectl context to refer to.
    let baseContext := effectiveContextName kubeconfig nicknameOptions opts
    if baseContext = "" then
      ⟨.fatal ("There is no current context in search path: " ++ searchPath), fs, envRestored⟩
    else
      match lookupAssoc kubeconfig.contexts baseContext with
      | none => ⟨.fatal ("Context \"" ++ baseContext ++ "\" doesn't exist."), fs, envRestored⟩
      | some contextDefn =>
        let contentAndOverrides :=
          newConfigContent baseContext contextDefn nicknameOptions opts
        let localConfigFilename := localConfigTarget sessionFile nickname kubeconfigEnvVar tempName
        let fs1 := ModifyConfig localConfigFilename contentAndOverrides.1 fs
        let basePath := if searchPath = "" then homeDir ++ "/.kube/config" else searchPath
        let newKubeconfigEnvVar :=
          localConfigFilename ++ String.singleton pathListSeparator ++ basePath
        ⟨.ok { newKubeconfigEnvVar := newKubeconfigEnvVar,
               kubectlExecutable := kubectlExecutable,
               overridesDescription := String.intercalate "," contentAndOverrides.2,
               localConfigFilename := localConfigFilename }, fs1, envRestored⟩

/-- Result of a koffProcessor invocation: the final filesystem, the shell lines
printed on standard output, the messages printed on standard error, and the
process exit status. -/
structure KoffResult where
  fs : FS
  stdoutLines : List String
  stderrLines : List String
  exitCode : Nat
deriving Repr, DecidableEq

/-- koffProcessor from cmd/kconfig-util/koff.go.  removeFails models the outcome
of the os.Remove call when it fails with an error other than ErrNotExist (a
missing file is silently ignored); previousKset models the _KCONFIG_KSET
environment variable.  koffProcessor contains no os.Exit call, so the process
always exits 0 after it returns. -/
def koffProcessor (kconfig : Kconfig) (env : Option String) (previousKset : String)
    (removeFails : Bool) (fs : FS) : KoffResult :=
  let kubeconfigEnvVar := env.getD ""
  if kubeconfigEnvVar = "" then ⟨fs, [], [], 0⟩
  else
    let localConfigFilename := GetExistingSessionLocalFilename kubeconfigEnvVar
    let removal : FS × List String :=
      if localConfigFilename ≠ "" then
        if removeFails then
          (fs, ["Error removing session-local kubectl configuration file"])
        else (removeFS fs localConfigFilename, [])
      else (fs, [])
    let restoreLine :=
      if kconfig.preferences.baseKubeconfig ≠ "" then
        "export KUBECONFIG=" ++ kconfig.preferences.baseKubeconfig
      else "unset KUBECONFIG"
    let oldKsetLines :=
      if previousKset ≠ "" then ["export _KCONFIG_OLDKSET=\"$_KCONFIG_KSET\""] else []
    ⟨removal.1, restoreLine :: oldKsetLines, removal.2, 0⟩

/-! Verification infrastructure: small algebraic lemmas about the association
lists, the filesystem, string prefixes, and the helper stages. -/

instance exceptDecidableEq {ε α : Type} [DecidableEq ε] [DecidableEq α] :
    DecidableEq (Except ε α)
  | .error e, .error f =>
      if h : e = f then isTrue (by rw [h]) else isFalse (by intro hc; cases hc; exact h rfl)
  | .error _, .ok _ => isFalse (by intro hc; cases hc)
  | .ok _, .error _ => isFalse (by intro hc; cases hc)
  | .ok a, .ok b =>
      if h : a = b then isTrue (by rw [h]) else isFalse (by intro hc; cases hc; exact h rfl)

theorem lookupAssoc_upsert_self {α : Type} (l : List (String × α)) (k : String) (v : α) :
    lookupAssoc (upsertAssoc l k v) k = some v := by
  induction l with
  | nil => simp [upsertAssoc, lookupAssoc]
  | cons head tail ih =>
      obtain ⟨k0, w⟩ := head
      by_cases h : k0 = k
      · simp [upsertAssoc, h, lookupAssoc]
      · simp [upsertAssoc, h, lookupAssoc, ih]

theorem lookupAssoc_upsert_ne {α : Type} (l : List (String × α)) (k p : String) (v : α)
    (h : p ≠ k) : lookupAssoc (upsertAssoc l k v) p = lookupAssoc l p := by
  induction l with
  | nil => simp [upsertAssoc, lookupAssoc, Ne.symm h]
  | cons head tail ih =>
      obtain ⟨k0, w⟩ := head
      by_cases hk : k0 = k
      · subst hk
        simp [upsertAssoc, lookupAssoc, Ne.symm h]
      · simp [upsertAssoc, hk, lookupAssoc, ih]

theorem upsertAssoc_upsertAssoc {α : Type} (l : List (String × α)) (k : String) (v w : α) :
    upsertAssoc (upsertAssoc l k v) k w = upsertAssoc l k w := by
  induction l with
  | nil => simp [upsertAssoc]
  | cons head tail ih =>
      obtain ⟨k0, u⟩ := head
      by_cases hk : k0 = k
      · simp [upsertAssoc, hk]
      · simp [upsertAssoc, hk, ih]

theorem lookupFS_writeFS_self (fs : FS) (p : String) (c : KubeConfig) :
    lookupFS (writeFS fs p c) p = some c := lookupAssoc_upsert_self fs p c

theorem lookupFS_writeFS_ne (fs : FS) (p q : String) (c : KubeConfig) (h : q ≠ p) :
    lookupFS (writeFS fs p c) q = lookupFS fs q := lookupAssoc_upsert_ne fs p q c h

theorem writeFS_writeFS (fs : FS) (p : String) (c d : KubeConfig) :
    writeFS (writeFS fs p c) p d = writeFS fs p d := upsertAssoc_upsertAssoc fs p c d

theorem lookupFS_removeFS_ne (fs : FS) (p q : String) (h : q ≠ p) :
    lookupFS (removeFS fs p) q = lookupFS fs q := by
  induction fs with
  | nil => rfl
  | cons head tail ih =>
      obtain ⟨k0, w⟩ := head
      by_cases hk : k0 = p
      · rw [show removeFS ((k0, w) :: tail) p = removeFS tail p by simp [removeFS, hk]]
        rw [ih]
        have hkq : k0 ≠ q := by rw [hk]; exact Ne.symm h
        simp [lookupFS, lookupAssoc, hkq]
      · rw [show removeFS ((k0, w) :: tail) p = (k0, w) :: removeFS tail p by
          simp [removeFS, hk]]
        by_cases hq : k0 = q
        · simp [lookupFS, lookupAssoc, hq]
        · simp only [lookupFS, lookupAssoc, hq, if_false] at ih ⊢
          exact ih

theorem strHasPrefix_iff (s pre : String) :
    strHasPrefix s pre = true ↔ pre.data <+: s.data := by
  simp [strHasPrefix, List.isPrefixOf_iff_prefix]

theorem strHasPrefix_refl (s : String) : strHasPrefix s s = true := by
  rw [strHasPrefix_iff]

theorem strHasPrefix_append (s t pre : String) (h : strHasPrefix s pre = true) :
    strHasPrefix (s ++ t) pre = true := by
  rw [strHasPrefix_iff] at h ⊢
  rw [String.data_append]
  exact h.trans (List.prefix_append _ _)

theorem strHasPrefix_ne_empty (s pre : String) (hpre : pre ≠ "")
    (h : strHasPrefix s pre = true) : s ≠ "" := by
  rw [strHasPrefix_iff] at h
  intro hs
  subst hs
  exact hpre (String.ext (List.prefix_nil.mp h))

theorem takeWhile_append_sep (p : Char → Bool) (l1 l2 : List Char) (c : Char)
    (h1 : ∀ x ∈ l1, p x = true) (h2 : p c = false) :
    (l1 ++ c :: l2).takeWhile p = l1 := by
  induction l1 with
  | nil => simp [List.takeWhile_cons, h2]
  | cons a t ih =>
      have ha : p a = true := h1 a (by simp)
      simp only [List.cons_append, List.takeWhile_cons, ha, if_true]
      rw [ih fun x hx => h1 x (by simp [hx])]

theorem prefix_takeWhile (p : Char → Bool) (pre l : List Char)
    (hp : pre <+: l) (hall : ∀ x ∈ pre, p x = true) : pre <+: l.takeWhile p := by
  induction pre generalizing l with
  | nil => simp
  | cons a t ih =>
      obtain ⟨rest, rfl⟩ := hp
      have ha : p a = true := hall a (by simp)
      simp only [List.cons_append, List.takeWhile_cons, ha, if_true]
      exact List.cons_prefix_cons.mpr
        ⟨rfl, ih (t ++ rest) (List.prefix_append t rest) fun x hx => hall x (by simp [hx])⟩

theorem getExisting_eq_takeWhile (s : String) (hs : s ≠ "")
    (hpre : strHasPrefix s kconfigTmpSessionDir = true) :
    GetExistingSessionLocalFilename s =
      ⟨s.data.takeWhile fun c => decide (c ≠ pathListSeparator)⟩ := by
  unfold GetExistingSessionLocalFilename
  simp [hs, hpre]

theorem getExisting_ne_empty_elim (s : String)
    (h : GetExistingSessionLocalFilename s ≠ "") :
    s ≠ "" ∧ strHasPrefix s kconfigTmpSessionDir = true := by
  unfold GetExistingSessionLocalFilename at h
  by_cases hs : s = ""
  · simp [hs] at h
  · by_cases hpre : strHasPrefix s kconfigTmpSessionDir = true
    · exact ⟨hs, hpre⟩
    · simp [hs, hpre] at h

theorem getExisting_spec (s : String) (hs : s ≠ "")
    (hpre : strHasPrefix s kconfigTmpSessionDir = true) :
    strHasPrefix (GetExistingSessionLocalFilename s) kconfigTmpSessionDir = true ∧
    (∀ c ∈ (GetExistingSessionLocalFilename s).data, c ≠ pathListSeparator) ∧
    GetExistingSessionLocalFilename s ≠ "" := by
  rw [getExisting_eq_takeWhile s hs hpre]
  have hall : ∀ x ∈ kconfigTmpSessionDir.data, (fun c => decide (c ≠ pathListSeparator)) x = true := by
    decide
  have hp2 : kconfigTmpSessionDir.data <+:
      s.data.takeWhile fun c => decide (c ≠ pathListSeparator) :=
    prefix_takeWhile _ _ _ ((strHasPrefix_iff s _).mp hpre) hall
  refine ⟨?_, ?_, ?_⟩
  · rw [strHasPrefix_iff]
    exact hp2
  · intro c hc
    have hc2 : c ∈ s.data.takeWhile fun c => decide (c ≠ pathListSeparator) := hc
    exact of_decide_eq_true
      (@List.mem_takeWhile_imp _ (fun c => decide (c ≠ pathListSeparator)) s.data c hc2)
  · intro hempty
    have : (s.data.takeWhile fun c => decide (c ≠ pathListSeparator)) = [] := by
      have := congrArg String.data hempty
      simpa using this
    rw [this] at hp2
    have : kconfigTmpSessionDir.data = [] := List.prefix_nil.mp hp2
    simp [kconfigTmpSessionDir, tempDir] at this

theorem getExisting_of_build (f b : String)
    (hpre : strHasPrefix f kconfigTmpSessionDir = true)
    (hns : ∀ c ∈ f.data, c ≠ pathListSeparator) :
    GetExistingSessionLocalFilename (f ++ String.singleton pathListSeparator ++ b) = f := by
  have hdata : (f ++ String.singleton pathListSeparator ++ b).data =
      f.data ++ pathListSeparator :: b.data := by
    rw [String.data_append, String.data_append]
    show f.data ++ [pathListSeparator] ++ b.data = _
    simp
  have hsne : (f ++ String.singleton pathListSeparator ++ b) ≠ "" := by
    intro hcontra
    have := congrArg String.data hcontra
    rw [hdata] at this
    simp at this
  have hpre2 : strHasPrefix (f ++ String.singleton pathListSeparator ++ b)
      kconfigTmpSessionDir = true := by
    rw [strHasPrefix_iff, hdata]
    exact ((strHasPrefix_iff f _).mp hpre).trans (List.prefix_append _ _)
  rw [getExisting_eq_takeWhile _ hsne hpre2]
  have : ((f ++ String.singleton pathListSeparator ++ b).data.takeWhile
      fun c => decide (c ≠ pathListSeparator)) = f.data := by
    rw [hdata]
    exact takeWhile_append_sep _ _ _ _
      (fun x hx => decide_eq_true (hns x hx)) (by simp)
  rw [this]

theorem localConfigTarget_session_spec (nickname kev tempName : String)
    (htemp : ∀ c ∈ tempName.data, c ≠ pathListSeparator) :
    strHasPrefix (localConfigTarget true nickname kev tempName) kconfigTmpSessionDir = true ∧
    (∀ c ∈ (localConfigTarget true nickname kev tempName).data, c ≠ pathListSeparator) ∧
    localConfigTarget true nickname kev tempName ≠ "" := by
  unfold localConfigTarget
  by_cases hex : GetExistingSessionLocalFilename kev = ""
  · simp only [if_true, hex, if_pos rfl]
    constructor
    · exact strHasPrefix_append _ _ _ (strHasPrefix_append _ _ _
        (strHasPrefix_append _ _ _ (strHasPrefix_refl _)))
    constructor
    · intro c hc
      simp only [String.data_append, List.mem_append] at hc
      rcases hc with ((hc | hc) | hc) | hc
      · revert c
        decide
      · revert c
        decide
      · exact htemp c hc
      · revert c
        decide
    · apply strHasPrefix_ne_empty _ kconfigTmpSessionDir
      · decide
      · exact strHasPrefix_append _ _ _ (strHasPrefix_append _ _ _
          (strHasPrefix_append _ _ _ (strHasPrefix_refl _)))
  · obtain ⟨hkev, hkpre⟩ := getExisting_ne_empty_elim kev hex
    obtain ⟨h1, h2, h3⟩ := getExisting_spec kev hkev hkpre
    simp only [if_true, if_neg hex]
    exact ⟨h1, h2, h3⟩

theorem localConfigTarget_session_fresh (nickname kev tempName : String)
    (hex : GetExistingSessionLocalFilename kev = "") :
    localConfigTarget true nickname kev tempName =
      kconfigTmpSessionDir ++ "/" ++ tempName ++ ".yaml" := by
  unfold localConfigTarget
  simp [hex]

theorem localConfigTarget_session_existing (nickname kev tempName : String)
    (hex : GetExistingSessionLocalFilename kev ≠ "") :
    localConfigTarget true nickname kev tempName = GetExistingSessionLocalFilename kev := by
  unfold localConfigTarget
  simp [hex]

theorem localConfigTarget_oneshot (nickname kev tempName : String) :
    localConfigTarget false nickname kev tempName =
      kconfigTmpNicknameDir ++ "/" ++ nickname ++ ".yaml" := by
  unfold localConfigTarget
  have hne : kconfigTmpNicknameDir ++ "/" ++ nickname ++ ".yaml" ≠ "" := by
    apply strHasPrefix_ne_empty _ kconfigTmpNicknameDir
    · decide
    · exact strHasPrefix_append _ _ _ (strHasPrefix_append _ _ _
        (strHasPrefix_append _ _ _ (strHasPrefix_refl _)))
  simp [hne]

theorem localConfigTarget_oneshot_prefixed (nickname kev tempName : String) :
    strHasPrefix (localConfigTarget false nickname kev tempName) kconfigTmpNicknameDir = true := by
  rw [localConfigTarget_oneshot]
  exact strHasPrefix_append _ _ _ (strHasPrefix_append _ _ _
    (strHasPrefix_append _ _ _ (strHasPrefix_refl _)))

theorem context_clear_eq (c : Context) (h : c.locationOfOrigin = "") :
    { c with locationOfOrigin := "" } = c := by
  cases c
  simp_all

theorem foldl_writeContextEntry_ne (g p : String) (hp : p ≠ g) :
    ∀ (l : List (String × Context)) (acc : FS),
      (∀ kv ∈ l, kv.2.locationOfOrigin = "") →
      lookupFS (l.foldl (fun a kv =>
        writeContextEntry a (contextDestination g kv.2) kv.1 kv.2) acc) p = lookupFS acc p
  | [], acc, _ => rfl
  | kv :: rest, acc, h => by
      rw [List.foldl_cons]
      rw [foldl_writeContextEntry_ne g p hp rest _ fun x hx => h x (by simp [hx])]
      have hd : contextDestination g kv.2 = g := by
        simp [contextDestination, h kv (by simp)]
      rw [hd]
      unfold writeContextEntry
      exact lookupFS_writeFS_ne _ _ _ _ hp

theorem modifyConfig_lookup_ne (g : String) (new : KubeConfig) (fs : FS) (p : String)
    (hp : p ≠ g) (hloc : ∀ kv ∈ new.contexts, kv.2.locationOfOrigin = "") :
    lookupFS (ModifyConfig g new fs) p = lookupFS fs p := by
  unfold ModifyConfig
  rw [foldl_writeContextEntry_ne g p hp _ _ hloc]
  exact lookupFS_writeFS_ne _ _ _ _ hp

theorem modifyConfig_pointer (g cc : String) (fs : FS) :
    ModifyConfig g { currentContext := cc, contexts := [] } fs =
      writeFS fs g { currentContext := cc, contexts := [] } := by
  unfold ModifyConfig
  simp [lookupAssoc]

theorem modifyConfig_single (g cc k : String) (c : Context) (hloc : c.locationOfOrigin = "")
    (fs : FS) :
    ModifyConfig g { currentContext := cc, contexts := [(k, c)] } fs =
      writeFS fs g
        { currentContext := cc
          contexts := upsertAssoc
            (((lookupFS fs g).getD {}).contexts.filter
              fun kv => (lookupAssoc [(k, c)] kv.1).isSome) k c } := by
  unfold ModifyConfig writeContextEntry
  rw [List.foldl_cons, List.foldl_nil]
  have hd : contextDestination g c = g := by simp [contextDestination, hloc]
  dsimp only
  rw [hd, lookupFS_writeFS_self]
  simp only [Option.getD_some]
  rw [writeFS_writeFS, context_clear_eq c hloc]

theorem loadConfig_congr_of_lookup (homeDir sp : String) (fs1 fs2 : FS)
    (h : ∀ q ∈ resolvedPaths homeDir sp, lookupFS fs1 q = lookupFS fs2 q) :
    loadConfig homeDir fs1 sp = loadConfig homeDir fs2 sp := by
  unfold loadConfig
  congr 1
  exact List.filterMap_congr fun q hq => by rw [h q hq]

theorem newSessionContext_loc (d : Context) (no o : KconfigOptions) :
    (newSessionContext d no o).1.locationOfOrigin = "" := by
  unfold newSessionContext
  by_cases h1 : no.nspace ≠ "" <;> by_cases h2 : o.nspace ≠ "" <;>
    by_cases h3 : no.user ≠ "" <;> by_cases h4 : o.user ≠ "" <;>
    simp [h1, h2, h3, h4]

theorem newConfigContent_loc (b : String) (d : Context) (no o : KconfigOptions) :
    ∀ kv ∈ (newConfigContent b d no o).1.contexts, kv.2.locationOfOrigin = "" := by
  unfold newConfigContent
  split
  · intro kv hkv
    simp only [List.mem_singleton] at hkv
    subst hkv
    exact newSessionContext_loc d no o
  · intro kv hkv
    simp at hkv

theorem newSessionContext_fields (d : Context) (no o : KconfigOptions) :
    (newSessionContext d no o).1 =
      { d with
        locationOfOrigin := ""
        nspace :=
          if o.nspace ≠ "" then o.nspace
          else if no.nspace ≠ "" then no.nspace else d.nspace
        authInfo :=
          if o.user ≠ "" then o.user
          else if no.user ≠ "" then no.user else d.authInfo } := by
  unfold newSessionContext
  by_cases h1 : no.nspace ≠ "" <;> by_cases h2 : o.nspace ≠ "" <;>
    by_cases h3 : no.user ≠ "" <;> by_cases h4 : o.user ≠ "" <;>
    simp [h1, h2, h3, h4]

theorem createLocal_ok_shape
    (kconfig : Kconfig) (homeDir tempName nickname : String) (o : KconfigOptions)
    (env : Option String) (fs : FS) (defn : String) (nickOpts : KconfigOptions) (exec : String)
    (contextDefn : Context)
    (hdefn : lookupAssoc kconfig.nicknames nickname = some defn)
    (hparse : parseNicknameDefinition kconfig defn = .ok (nickOpts, exec))
    (hname : effectiveContextName (ReadKubeConfig homeDir fs
      (some (effectiveSearchPath kconfig nickOpts o))) nickOpts o ≠ "")
    (hctx : lookupAssoc (ReadKubeConfig homeDir fs
      (some (effectiveSearchPath kconfig nickOpts o))).contexts
      (effectiveContextName (ReadKubeConfig homeDir fs
        (some (effectiveSearchPath kconfig nickOpts o))) nickOpts o) = some contextDefn) :
    CreateLocalKubectlConfigFile kconfig homeDir tempName nickname (some o) true env fs =
      { outcome := .ok
          { newKubeconfigEnvVar :=
              localConfigTarget true nickname (env.getD "") tempName ++
                String.singleton pathListSeparator ++
                (if effectiveSearchPath kconfig nickOpts o = "" then homeDir ++ "/.kube/config"
                 else effectiveSearchPath kconfig nickOpts o)
            kubectlExecutable := exec
            overridesDescription := String.intercalate ","
              (newConfigContent (effectiveContextName (ReadKubeConfig homeDir fs
                (some (effectiveSearchPath kconfig nickOpts o))) nickOpts o)
                contextDefn nickOpts o).2
            localConfigFilename := localConfigTarget true nickname (env.getD "") tempName }
        fs := ModifyConfig (localConfigTarget true nickname (env.getD "") tempName)
          (newConfigContent (effectiveContextName (ReadKubeConfig homeDir fs
            (some (effectiveSearchPath kconfig nickOpts o))) nickOpts o)
            contextDefn nickOpts o).1 fs
        env := env } := by
  have henv : (if env.isSome then some (env.getD "") else none) = env := by
    cases env <;> rfl
  unfold CreateLocalKubectlConfigFile lookupKconfigNickname
  rw [hdefn]
  dsimp only
  rw [hparse]
  dsimp only
  rw [if_neg hname, hctx]
  dsimp only
  rw [henv]

/-- C10: CreateLocalKubectlConfigFile reads the base configuration with the
KUBECONFIG variable of its own process temporarily set to the effective base
search path (the read in the definition happens at env value
some (effectiveSearchPath ...)), and on every return — in particular on every
successful one — the process's KUBECONFIG environment variable equals its
original value, and stays unset if it was originally unset. -/
theorem claim10_kubeconfig_env_restored (kconfig : Kconfig)
    (homeDir tempName nickname : String) (kconfigOptions : Option KconfigOptions)
    (sessionFile : Bool) (env : Option String) (fs : FS) :
    (CreateLocalKubectlConfigFile kconfig homeDir tempName nickname kconfigOptions
      sessionFile env fs).env = env := by
  have henv : (if Option.isSome env = true then some (env.getD "") else none) = env := by
    cases env <;> rfl
  rcases hn : lookupAssoc kconfig.nicknames nickname with _ | defn
  · unfold CreateLocalKubectlConfigFile lookupKconfigNickname
    cases sessionFile <;> rcases kconfigOptions with _ | o <;>
      first
        | rfl
        | (rw [hn]; try rfl)
  · rcases hp : parseNicknameDefinition kconfig defn with e | ⟨nickOpts, exec⟩
    · unfold CreateLocalKubectlConfigFile lookupKconfigNickname
      cases sessionFile <;> rcases kconfigOptions with _ | o <;>
        first
          | rfl
          | (rw [hn]; try dsimp only; try rw [hp]; try rfl)
    · unfold CreateLocalKubectlConfigFile lookupKconfigNickname
      cases sessionFile <;> rcases kconfigOptions with _ | o <;>
        first
          | rfl
          | (rw [hn]; try dsimp only; try rw [hp]; try dsimp only;
             split <;> first
               | exact henv
               | (split <;> exact henv))

theorem localConfigTarget_session_prefixed (nickname kev tempName : String) :
    strHasPrefix (localConfigTarget true nickname kev tempName) kconfigTmpSessionDir = true := by
  by_cases hex : GetExistingSessionLocalFilename kev = ""
  · rw [localConfigTarget_session_fresh _ _ _ hex]
    exact strHasPrefix_append _ _ _ (strHasPrefix_append _ _ _
      (strHasPrefix_append _ _ _ (strHasPrefix_refl _)))
  · rw [localConfigTarget_session_existing _ _ _ hex]
    obtain ⟨hkev, hpre⟩ := getExisting_ne_empty_elim kev hex
    exact (getExisting_spec kev hkev hpre).1

/-- C1: every invocation of the session config synthesizer (in session mode or
one-shot mode) leaves every file unchanged except files whose path starts with
one of the two kconfig temp directories (so the base kubeconfig files on the
search path are only read, never written); and koff leaves every file unchanged
except files whose path starts with the session temp directory. -/
theorem claim1_base_files_only_read :
    (∀ (kconfig : Kconfig) (homeDir tempName nickname : String)
        (kconfigOptions : Option KconfigOptions) (sessionFile : Bool)
        (env : Option String) (fs : FS) (p : String),
        strHasPrefix p kconfigTmpSessionDir = false →
        strHasPrefix p kconfigTmpNicknameDir = false →
        lookupFS (CreateLocalKubectlConfigFile kconfig homeDir tempName nickname
          kconfigOptions sessionFile env fs).fs p = lookupFS fs p) ∧
    (∀ (kconfig : Kconfig) (env : Option String) (previousKset : String)
        (removeFails : Bool) (fs : FS) (p : String),
        strHasPrefix p kconfigTmpSessionDir = false →
        lookupFS (koffProcessor kconfig env previousKset removeFails fs).fs p =
          lookupFS fs p) := by
  constructor
  · intro kconfig homeDir tempName nickname kconfigOptions sessionFile env fs p hp1 hp2
    have hneF : p ≠ localConfigTarget false nickname (env.getD "") tempName := by
      intro hcontra
      have h := localConfigTarget_oneshot_prefixed nickname (env.getD "") tempName
      rw [← hcontra, hp2] at h
      simp at h
    have hneT : p ≠ localConfigTarget true nickname (env.getD "") tempName := by
      intro hcontra
      have h := localConfigTarget_session_prefixed nickname (env.getD "") tempName
      rw [← hcontra, hp1] at h
      simp at h
    rcases hn : lookupAssoc kconfig.nicknames nickname with _ | defn
    · unfold CreateLocalKubectlConfigFile lookupKconfigNickname
      cases sessionFile <;> rcases kconfigOptions with _ | o <;>
        first
          | rfl
          | (rw [hn]; try rfl)
    · rcases hp : parseNicknameDefinition kconfig defn with e | ⟨nickOpts, exec⟩
      · unfold CreateLocalKubectlConfigFile lookupKconfigNickname
        cases sessionFile <;> rcases kconfigOptions with _ | o <;>
          first
            | rfl
            | (rw [hn]; try dsimp only; try rw [hp]; try rfl)
      · unfold CreateLocalKubectlConfigFile lookupKconfigNickname
        cases sessionFile <;> rcases kconfigOptions with _ | o <;>
          first
            | rfl
            | (rw [hn]; try dsimp only; try rw [hp]; try dsimp only;
               split <;> first
                 | rfl
                 | (split <;> first
                     | rfl
                     | (exact modifyConfig_lookup_ne _ _ _ _
                         (by first | exact hneT | exact hneF)
                         (newConfigContent_loc _ _ _ _))))
  · intro kconfig env previousKset removeFails fs p hp1
    unfold koffProcessor
    dsimp only
    by_cases hkev : env.getD "" = ""
    · rw [if_pos hkev]
    · rw [if_neg hkev]
      dsimp only
      by_cases hex : GetExistingSessionLocalFilename (env.getD "") = ""
      · rw [if_neg (not_not_intro hex)]
      · obtain ⟨hkev2, hpre⟩ := getExisting_ne_empty_elim _ hex
        have hname := (getExisting_spec _ hkev2 hpre).1
        have hnp : p ≠ GetExistingSessionLocalFilename (env.getD "") := by
          intro hcontra
          rw [← hcontra, hp1] at hname
          simp at hname
        rw [if_pos hex]
        cases removeFails
        · exact lookupFS_removeFS_ne _ _ _ hnp
        · rfl

/-- Witness for claim1_base_files_only_read at a concrete invocation: the base
file HOME/.kube/config is unchanged by kset, and an unrelated file is unchanged
by koff. -/
theorem claim1_witness :
    lookupFS (CreateLocalKubectlConfigFile { nicknames := [("dev", "--context test")] }
        "/home/u" "123" "dev" (some {}) true none
        [("/home/u/.kube/config", { currentContext := "test", contexts := [("test", {})] })]).fs
      "/home/u/.kube/config" =
      lookupFS [("/home/u/.kube/config",
        { currentContext := "test", contexts := [("test", {})] })] "/home/u/.kube/config" ∧
    lookupFS (koffProcessor {} (some "/tmp/kconfig/session/a.yaml:/b") "" false
        [("/x", {})]).fs "/x" = lookupFS [("/x", {})] "/x" :=
  ⟨claim1_base_files_only_read.1 { nicknames := [("dev", "--context test")] }
      "/home/u" "123" "dev" (some {}) true none
      [("/home/u/.kube/config", { currentContext := "test", contexts := [("test", {})] })]
      "/home/u/.kube/config" (by decide) (by decide),
    claim1_base_files_only_read.2 {} (some "/tmp/kconfig/session/a.yaml:/b") "" false
      [("/x", {})] "/x" (by decide)⟩

theorem createLocal_ok_shape_oneshot
    (kconfig : Kconfig) (homeDir tempName nickname : String)
    (env : Option String) (fs : FS) (defn : String) (nickOpts : KconfigOptions) (exec : String)
    (contextDefn : Context)
    (hdefn : lookupAssoc kconfig.nicknames nickname = some defn)
    (hparse : parseNicknameDefinition kconfig defn = .ok (nickOpts, exec))
    (hname : effectiveContextName (ReadKubeConfig homeDir fs
      (some (effectiveSearchPath kconfig nickOpts {}))) nickOpts {} ≠ "")
    (hctx : lookupAssoc (ReadKubeConfig homeDir fs
      (some (effectiveSearchPath kconfig nickOpts {}))).contexts
      (effectiveContextName (ReadKubeConfig homeDir fs
        (some (effectiveSearchPath kconfig nickOpts {}))) nickOpts {}) = some contextDefn) :
    CreateLocalKubectlConfigFile kconfig homeDir tempName nickname none false env fs =
      { outcome := .ok
          { newKubeconfigEnvVar :=
              localConfigTarget false nickname (env.getD "") tempName ++
                String.singleton pathListSeparator ++
                (if effectiveSearchPath kconfig nickOpts {} = "" then homeDir ++ "/.kube/config"
                 else effectiveSearchPath kconfig nickOpts {})
            kubectlExecutable := exec
            overridesDescription := String.intercalate ","
              (newConfigContent (effectiveContextName (ReadKubeConfig homeDir fs
                (some (effectiveSearchPath kconfig nickOpts {}))) nickOpts {})
                contextDefn nickOpts {}).2
            localConfigFilename := localConfigTarget false nickname (env.getD "") tempName }
        fs := ModifyConfig (localConfigTarget false nickname (env.getD "") tempName)
          (newConfigContent (effectiveContextName (ReadKubeConfig homeDir fs
            (some (effectiveSearchPath kconfig nickOpts {}))) nickOpts {})
            contextDefn nickOpts {}).1 fs
        env := env } := by
  have henv : (if env.isSome then some (env.getD "") else none) = env := by
    cases env <;> rfl
  unfold CreateLocalKubectlConfigFile lookupKconfigNickname
  rw [hdefn]
  dsimp only
  rw [hparse]
  dsimp only
  rw [if_neg hname, hctx]
  dsimp only
  rw [henv]

theorem koff_removes_built (kconfig2 : Kconfig) (prev : String) (rf : Bool)
    (fs2 : FS) (f b : String)
    (hpre : strHasPrefix f kconfigTmpSessionDir = true)
    (hns : ∀ c ∈ f.data, c ≠ pathListSeparator) :
    (koffProcessor kconfig2 (some (f ++ String.singleton pathListSeparator ++ b)) prev rf
        fs2).fs = if rf then fs2 else removeFS fs2 f := by
  have hwhole : strHasPrefix (f ++ String.singleton pathListSeparator ++ b)
      kconfigTmpSessionDir = true :=
    strHasPrefix_append _ _ _ (strHasPrefix_append _ _ _ hpre)
  have hsne : (f ++ String.singleton pathListSeparator ++ b) ≠ "" :=
    strHasPrefix_ne_empty _ kconfigTmpSessionDir (by decide) hwhole
  have hfne : f ≠ "" := strHasPrefix_ne_empty _ kconfigTmpSessionDir (by decide) hpre
  have hgb := getExisting_of_build f b hpre hns
  unfold koffProcessor
  dsimp only
  simp only [Option.getD_some]
  rw [if_neg hsne]
  dsimp only
  rw [hgb, if_pos hfne]
  cases rf <;> rfl

theorem effectiveSearchPath_with_default (kconfig : Kconfig) (nickOpts o : KconfigOptions)
    (homeDir : String) :
    (if effectiveSearchPath kconfig nickOpts o = "" then homeDir ++ "/.kube/config"
     else effectiveSearchPath kconfig nickOpts o) =
      (if o.kubeConfig ≠ "" then o.kubeConfig
       else if nickOpts.kubeConfig ≠ "" then nickOpts.kubeConfig
       else if kconfig.preferences.baseKubeconfig ≠ "" then kconfig.preferences.baseKubeconfig
       else homeDir ++ "/.kube/config") := by
  unfold effectiveSearchPath
  by_cases h1 : o.kubeConfig = "" <;> by_cases h2 : nickOpts.kubeConfig = "" <;>
    by_cases h3 : kconfig.preferences.baseKubeconfig = "" <;> simp [h1, h2, h3]

/-- C6: on success, the returned KUBECONFIG value is exactly the local config
file name, the OS path-list separator, and the effective base search path: the
override --kubeconfig value, else the nickname --kubeconfig value, else the
base_kubeconfig preference, else HOME/.kube/config when that preference is
empty. -/
theorem claim6_new_kubeconfig_value
    (kconfig : Kconfig) (homeDir tempName nickname : String) (o : KconfigOptions)
    (env : Option String) (fs : FS) (defn : String) (nickOpts : KconfigOptions) (exec : String)
    (contextDefn : Context) (r : CreateOk)
    (hdefn : lookupAssoc kconfig.nicknames nickname = some defn)
    (hparse : parseNicknameDefinition kconfig defn = .ok (nickOpts, exec))
    (hname : effectiveContextName (ReadKubeConfig homeDir fs
      (some (effectiveSearchPath kconfig nickOpts o))) nickOpts o ≠ "")
    (hctx : lookupAssoc (ReadKubeConfig homeDir fs
      (some (effectiveSearchPath kconfig nickOpts o))).contexts
      (effectiveContextName (ReadKubeConfig homeDir fs
        (some (effectiveSearchPath kconfig nickOpts o))) nickOpts o) = some contextDefn)
    (hok : (CreateLocalKubectlConfigFile kconfig homeDir tempName nickname (some o) true
      env fs).outcome = .ok r) :
    r.newKubeconfigEnvVar = r.localConfigFilename ++ String.singleton pathListSeparator ++
      (if o.kubeConfig ≠ "" then o.kubeConfig
       else if nickOpts.kubeConfig ≠ "" then nickOpts.kubeConfig
       else if kconfig.preferences.baseKubeconfig ≠ "" then kconfig.preferences.baseKubeconfig
       else homeDir ++ "/.kube/config") := by
  rw [createLocal_ok_shape kconfig homeDir tempName nickname o env fs defn nickOpts exec
    contextDefn hdefn hparse hname hctx] at hok
  dsimp only at hok
  injection hok with h
  rw [← h]
  dsimp only
  rw [effectiveSearchPath_with_default]

/-- Witness for claim6_new_kubeconfig_value at a concrete invocation. -/
theorem claim6_witness :
    ({ newKubeconfigEnvVar := "/tmp/kconfig/session/123.yaml:/home/u/.kube/config",
       kubectlExecutable := "kubectl", overridesDescription := "",
       localConfigFilename := "/tmp/kconfig/session/123.yaml" } : CreateOk).newKubeconfigEnvVar =
      ({ newKubeconfigEnvVar := "/tmp/kconfig/session/123.yaml:/home/u/.kube/config",
         kubectlExecutable := "kubectl", overridesDescription := "",
         localConfigFilename := "/tmp/kconfig/session/123.yaml" } : CreateOk).localConfigFilename ++
        String.singleton pathListSeparator ++
        (if ({} : KconfigOptions).kubeConfig ≠ "" then ({} : KconfigOptions).kubeConfig
         else if ({ context := "test" } : KconfigOptions).kubeConfig ≠ "" then
           ({ context := "test" } : KconfigOptions).kubeConfig
         else if ({ nicknames := [("dev", "--context test")] } : Kconfig).preferences.baseKubeconfig ≠ "" then
           ({ nicknames := [("dev", "--context test")] } : Kconfig).preferences.baseKubeconfig
         else "/home/u" ++ "/.kube/config") :=
  claim6_new_kubeconfig_value { nicknames := [("dev", "--context test")] } "/home/u" "123" "dev"
    {} none
    [("/home/u/.kube/config",
      { currentContext := "test",
        contexts := [("test", { cluster := "tc", authInfo := "tu", nspace := "tns" })] })]
    "--context test" { context := "test" } "kubectl"
    { cluster := "tc", authInfo := "tu", nspace := "tns",
      locationOfOrigin := "/home/u/.kube/config" }
    { newKubeconfigEnvVar := "/tmp/kconfig/session/123.yaml:/home/u/.kube/config",
      kubectlExecutable := "kubectl", overridesDescription := "",
      localConfigFilename := "/tmp/kconfig/session/123.yaml" }
    (by decide) (by decide) (by decide) (by decide) (by decide)

theorem modifyConfig_content_written (g bctx : String) (d : Context) (no o : KconfigOptions)
    (fs : FS) :
    ∃ c, lookupFS (ModifyConfig g (newConfigContent bctx d no o).1 fs) g = some c := by
  unfold newConfigContent
  split
  · dsimp only
    rw [modifyConfig_single _ _ _ _ (newSessionContext_loc d no o) fs]
    exact ⟨_, lookupFS_writeFS_self _ _ _⟩
  · dsimp only
    rw [modifyConfig_pointer]
    exact ⟨_, lookupFS_writeFS_self _ _ _⟩

/-- C5: in session mode the emitted file is a fresh random name under the
session temp directory exactly when the incoming KUBECONFIG does not already
name a session file, and otherwise it is that existing session file, which is
overwritten (the call always leaves content at the chosen path); in one-shot
mode the emitted file is nickname.yaml under the nickname temp directory; and
koff, run with the produced KUBECONFIG value, deletes the session file. -/
theorem claim5_session_file_lifecycle
    (kconfig : Kconfig) (homeDir tempName tempName2 nickname : String) (o : KconfigOptions)
    (env env2 : Option String) (fs fs2 : FS) (defn : String) (nickOpts : KconfigOptions)
    (exec : String) (contextDefn contextDefn2 : Context) (r r2 : CreateOk)
    (hdefn : lookupAssoc kconfig.nicknames nickname = some defn)
    (hparse : parseNicknameDefinition kconfig defn = .ok (nickOpts, exec))
    (hname : effectiveContextName (ReadKubeConfig homeDir fs
      (some (effectiveSearchPath kconfig nickOpts o))) nickOpts o ≠ "")
    (hctx : lookupAssoc (ReadKubeConfig homeDir fs
      (some (effectiveSearchPath kconfig nickOpts o))).contexts
      (effectiveContextName (ReadKubeConfig homeDir fs
        (some (effectiveSearchPath kconfig nickOpts o))) nickOpts o) = some contextDefn)
    (hok : (CreateLocalKubectlConfigFile kconfig homeDir tempName nickname (some o) true
      env fs).outcome = .ok r)
    (hname2 : effectiveContextName (ReadKubeConfig homeDir fs2
      (some (effectiveSearchPath kconfig nickOpts {}))) nickOpts {} ≠ "")
    (hctx2 : lookupAssoc (ReadKubeConfig homeDir fs2
      (some (effectiveSearchPath kconfig nickOpts {}))).contexts
      (effectiveContextName (ReadKubeConfig homeDir fs2
        (some (effectiveSearchPath kconfig nickOpts {}))) nickOpts {}) = some contextDefn2)
    (hok2 : (CreateLocalKubectlConfigFile kconfig homeDir tempName2 nickname none false
      env2 fs2).outcome = .ok r2) :
    (GetExistingSessionLocalFilename (env.getD "") = "" →
        r.localConfigFilename = kconfigTmpSessionDir ++ "/" ++ tempName ++ ".yaml") ∧
    (GetExistingSessionLocalFilename (env.getD "") ≠ "" →
        r.localConfigFilename = GetExistingSessionLocalFilename (env.getD "")) ∧
    (∃ c, lookupFS (CreateLocalKubectlConfigFile kconfig homeDir tempName nickname (some o)
        true env fs).fs r.localConfigFilename = some c) ∧
    r2.localConfigFilename = kconfigTmpNicknameDir ++ "/" ++ nickname ++ ".yaml" ∧
    (∀ (kconfig2 : Kconfig) (prev : String) (fsk : FS),
        (∀ c ∈ tempName.data, c ≠ pathListSeparator) →
        (koffProcessor kconfig2 (some r.newKubeconfigEnvVar) prev false fsk).fs =
          removeFS fsk r.localConfigFilename) := by
  have hshape := createLocal_ok_shape kconfig homeDir tempName nickname o env fs defn nickOpts
    exec contextDefn hdefn hparse hname hctx
  rw [hshape] at hok
  dsimp only at hok
  injection hok with h
  have hshape2 := createLocal_ok_shape_oneshot kconfig homeDir tempName2 nickname env2 fs2 defn
    nickOpts exec contextDefn2 hdefn hparse hname2 hctx2
  rw [hshape2] at hok2
  dsimp only at hok2
  injection hok2 with h2
  refine ⟨?_, ?_, ?_, ?_, ?_⟩
  · intro hex
    rw [← h]
    dsimp only
    exact localConfigTarget_session_fresh nickname (env.getD "") tempName hex
  · intro hex
    rw [← h]
    dsimp only
    exact localConfigTarget_session_existing nickname (env.getD "") tempName hex
  · rw [hshape, ← h]
    dsimp only
    exact modifyConfig_content_written (localConfigTarget true nickname (env.getD "") tempName)
      (effectiveContextName (ReadKubeConfig homeDir fs
        (some (effectiveSearchPath kconfig nickOpts o))) nickOpts o) contextDefn nickOpts o fs
  · rw [← h2]
    dsimp only
    exact localConfigTarget_oneshot nickname (env2.getD "") tempName2
  · intro kconfig2 prev fsk htemp
    rw [← h]
    dsimp only
    have hpre := localConfigTarget_session_prefixed nickname (env.getD "") tempName
    have hns := (localConfigTarget_session_spec nickname (env.getD "") tempName htemp).2.1
    have hk := koff_removes_built kconfig2 prev false fsk
      (localConfigTarget true nickname (env.getD "") tempName)
      (if effectiveSearchPath kconfig nickOpts o = "" then homeDir ++ "/.kube/config"
       else effectiveSearchPath kconfig nickOpts o) hpre hns
    simpa using hk

/-- Witness for claim5_session_file_lifecycle at a concrete pair of
invocations (session mode with unset KUBECONFIG, and one-shot mode). -/
theorem claim5_witness :
    ({ newKubeconfigEnvVar := "/tmp/kconfig/session/123.yaml:/home/u/.kube/config",
       kubectlExecutable := "kubectl", overridesDescription := "",
       localConfigFilename := "/tmp/kconfig/session/123.yaml" } : CreateOk).localConfigFilename =
      kconfigTmpSessionDir ++ "/" ++ "123" ++ ".yaml" ∧
    ({ newKubeconfigEnvVar := "/tmp/kconfig/nicks/dev.yaml:/home/u/.kube/config",
       kubectlExecutable := "kubectl", overridesDescription := "",
       localConfigFilename := "/tmp/kconfig/nicks/dev.yaml" } : CreateOk).localConfigFilename =
      kconfigTmpNicknameDir ++ "/" ++ "dev" ++ ".yaml" ∧
    (koffProcessor {}
        (some ({ newKubeconfigEnvVar := "/tmp/kconfig/session/123.yaml:/home/u/.kube/config",
                 kubectlExecutable := "kubectl", overridesDescription := "",
                 localConfigFilename :=
                   "/tmp/kconfig/session/123.yaml" } : CreateOk).newKubeconfigEnvVar)
        "" false [("/tmp/kconfig/session/123.yaml", { currentContext := "test", contexts := [] })]).fs =
      removeFS [("/tmp/kconfig/session/123.yaml", { currentContext := "test", contexts := [] })]
        ({ newKubeconfigEnvVar := "/tmp/kconfig/session/123.yaml:/home/u/.kube/config",
           kubectlExecutable := "kubectl", overridesDescription := "",
           localConfigFilename := "/tmp/kconfig/session/123.yaml" } : CreateOk).localConfigFilename := by
  have hmain := claim5_session_file_lifecycle
    { nicknames := [("dev", "--context test")] } "/home/u" "123" "999" "dev" {} none none
    [("/home/u/.kube/config",
      { currentContext := "test",
        contexts := [("test", { cluster := "tc", authInfo := "tu", nspace := "tns" })] })]
    [("/home/u/.kube/config",
      { currentContext := "test",
        contexts := [("test", { cluster := "tc", authInfo := "tu", nspace := "tns" })] })]
    "--context test" { context := "test" } "kubectl"
    { cluster := "tc", authInfo := "tu", nspace := "tns",
      locationOfOrigin := "/home/u/.kube/config" }
    { cluster := "tc", authInfo := "tu", nspace := "tns",
      locationOfOrigin := "/home/u/.kube/config" }
    { newKubeconfigEnvVar := "/tmp/kconfig/session/123.yaml:/home/u/.kube/config",
      kubectlExecutable := "kubectl", overridesDescription := "",
      localConfigFilename := "/tmp/kconfig/session/123.yaml" }
    { newKubeconfigEnvVar := "/tmp/kconfig/nicks/dev.yaml:/home/u/.kube/config",
      kubectlExecutable := "kubectl", overridesDescription := "",
      localConfigFilename := "/tmp/kconfig/nicks/dev.yaml" }
    (by decide) (by decide) (by decide) (by decide) (by decide) (by decide) (by decide)
    (by decide)
  exact ⟨hmain.1 (by decide), hmain.2.2.2.1,
    hmain.2.2.2.2 {} ""
      [("/tmp/kconfig/session/123.yaml", { currentContext := "test", contexts := [] })]
      (by decide)⟩

/-- C3: if neither the nickname definition nor the overrides set a namespace or
user, the emitted file is exactly a current-context pointer to the chosen
context (no context entries); otherwise the chosen context is deep-copied with
its namespace and user replaced by the effective values, stored under the fixed
synthetic name kconfig_context and made the file's current context; in
particular an overriding namespace always appears in the emitted context. -/
theorem claim3_emitted_file_content
    (kconfig : Kconfig) (homeDir tempName nickname : String) (o : KconfigOptions)
    (env : Option String) (fs : FS) (defn : String) (nickOpts : KconfigOptions) (exec : String)
    (contextDefn : Context) (r : CreateOk)
    (hdefn : lookupAssoc kconfig.nicknames nickname = some defn)
    (hparse : parseNicknameDefinition kconfig defn = .ok (nickOpts, exec))
    (hname : effectiveContextName (ReadKubeConfig homeDir fs
      (some (effectiveSearchPath kconfig nickOpts o))) nickOpts o ≠ "")
    (hctx : lookupAssoc (ReadKubeConfig homeDir fs
      (some (effectiveSearchPath kconfig nickOpts o))).contexts
      (effectiveContextName (ReadKubeConfig homeDir fs
        (some (effectiveSearchPath kconfig nickOpts o))) nickOpts o) = some contextDefn)
    (hok : (CreateLocalKubectlConfigFile kconfig homeDir tempName nickname (some o) true
      env fs).outcome = .ok r) :
    (¬ needNewContext nickOpts o →
        lookupFS (CreateLocalKubectlConfigFile kconfig homeDir tempName nickname (some o) true
            env fs).fs r.localConfigFilename =
          some { currentContext := effectiveContextName (ReadKubeConfig homeDir fs
                   (some (effectiveSearchPath kconfig nickOpts o))) nickOpts o
                 contexts := [] }) ∧
    (needNewContext nickOpts o →
        ((lookupFS (CreateLocalKubectlConfigFile kconfig homeDir tempName nickname (some o)
            true env fs).fs r.localConfigFilename).getD {}).currentContext =
          kconfigContextName ∧
        lookupAssoc ((lookupFS (CreateLocalKubectlConfigFile kconfig homeDir tempName nickname
            (some o) true env fs).fs r.localConfigFilename).getD {}).contexts
            kconfigContextName =
          some { contextDefn with
                 locationOfOrigin := ""
                 nspace :=
                   if o.nspace ≠ "" then o.nspace
                   else if nickOpts.nspace ≠ "" then nickOpts.nspace else contextDefn.nspace
                 authInfo :=
                   if o.user ≠ "" then o.user
                   else if nickOpts.user ≠ "" then nickOpts.user else contextDefn.authInfo }) ∧
    (o.nspace ≠ "" →
        (lookupAssoc ((lookupFS (CreateLocalKubectlConfigFile kconfig homeDir tempName nickname
            (some o) true env fs).fs r.localConfigFilename).getD {}).contexts
            kconfigContextName).map Context.nspace = some o.nspace) := by
  have hshape := createLocal_ok_shape kconfig homeDir tempName nickname o env fs defn nickOpts
    exec contextDefn hdefn hparse hname hctx
  rw [hshape] at hok
  dsimp only at hok
  injection hok with h
  rw [hshape, ← h]
  dsimp only
  refine ⟨?_, ?_, ?_⟩
  · intro hnn
    unfold newConfigContent
    rw [if_neg hnn]
    dsimp only
    rw [modifyConfig_pointer, lookupFS_writeFS_self]
  · intro hnn
    unfold newConfigContent
    rw [if_pos hnn]
    dsimp only
    rw [modifyConfig_single _ _ _ _ (newSessionContext_loc contextDefn nickOpts o) fs,
      lookupFS_writeFS_self]
    simp only [Option.getD_some]
    exact ⟨by trivial, by rw [lookupAssoc_upsert_self, newSessionContext_fields]⟩
  · intro hno
    have hnn : needNewContext nickOpts o := Or.inr (Or.inr (Or.inl hno))
    unfold newConfigContent
    rw [if_pos hnn]
    dsimp only
    rw [modifyConfig_single _ _ _ _ (newSessionContext_loc contextDefn nickOpts o) fs,
      lookupFS_writeFS_self]
    simp only [Option.getD_some]
    rw [lookupAssoc_upsert_self, newSessionContext_fields]
    simp [hno]

/-- Witness for claim3_emitted_file_content: a namespace override appears in
the emitted kconfig_context entry. -/
theorem claim3_witness :
    (lookupAssoc ((lookupFS (CreateLocalKubectlConfigFile
        { nicknames := [("dev", "--context test")] } "/home/u" "123" "dev"
        (some { nspace := "zz" }) true none
        [("/home/u/.kube/config",
          { currentContext := "test",
            contexts := [("test", { cluster := "tc", authInfo := "tu", nspace := "tns" })] })]).fs
        "/tmp/kconfig/session/123.yaml").getD {}).contexts
      kconfigContextName).map Context.nspace = some "zz" := by
  have hmain := claim3_emitted_file_content
    { nicknames := [("dev", "--context test")] } "/home/u" "123" "dev" { nspace := "zz" } none
    [("/home/u/.kube/config",
      { currentContext := "test",
        contexts := [("test", { cluster := "tc", authInfo := "tu", nspace := "tns" })] })]
    "--context test" { context := "test" } "kubectl"
    { cluster := "tc", authInfo := "tu", nspace := "tns",
      locationOfOrigin := "/home/u/.kube/config" }
    { newKubeconfigEnvVar := "/tmp/kconfig/session/123.yaml:/home/u/.kube/config",
      kubectlExecutable := "kubectl", overridesDescription := "ns=zz",
      localConfigFilename := "/tmp/kconfig/session/123.yaml" }
    (by decide) (by decide) (by decide) (by decide) (by decide)
  exact hmain.2.2 (by decide)

/-- The precedence rule exactly as the specification words it: a field set in
the overrides wins, else the field set in the nickname definition, else the
base value, else the built-in default.  This is a specification-side
definition, to be compared with what the code computes. -/
def specPrecedence (ov nick base dflt : String) : String :=
  if ov ≠ "" then ov else if nick ≠ "" then nick else if base ≠ "" then base else dflt

theorem specPrecedence_empty_default (ov nick base : String) :
    specPrecedence ov nick base "" =
      (if ov ≠ "" then ov else if nick ≠ "" then nick else base) := by
  unfold specPrecedence
  by_cases h1 : ov = "" <;> by_cases h2 : nick = "" <;> by_cases h3 : base = "" <;>
    simp [h1, h2, h3]

theorem effectiveSearchPath_spec (kconfig : Kconfig) (nickOpts o : KconfigOptions) :
    effectiveSearchPath kconfig nickOpts o =
      specPrecedence o.kubeConfig nickOpts.kubeConfig kconfig.preferences.baseKubeconfig "" := by
  rw [specPrecedence_empty_default]
  unfold effectiveSearchPath
  by_cases h1 : o.kubeConfig = "" <;> by_cases h2 : nickOpts.kubeConfig = "" <;> simp [h1, h2]

theorem effectiveContextName_spec (kubeconfig : KubeConfig) (nickOpts o : KconfigOptions) :
    effectiveContextName kubeconfig nickOpts o =
      specPrecedence o.context nickOpts.context kubeconfig.currentContext "" := by
  rw [specPrecedence_empty_default]
  unfold effectiveContextName
  by_cases h1 : o.context = "" <;> by_cases h2 : nickOpts.context = "" <;> simp [h1, h2]

/-- Counterexample to C2 as stated: with nickname "dev" defined as
"--context other --user u2", a base file whose current context is "test" (with
namespace nsA) and whose context "other" carries namespace nsB, the emitted
effective namespace is nsB — the chosen context's value — while the claim's
precedence (override > nickname > the base file's current context's namespace
> default) yields nsA. -/
theorem claim2_counterexample :
    (lookupAssoc ((lookupFS (CreateLocalKubectlConfigFile
        { nicknames := [("dev", "--context other --user u2")] } "/home/u" "123" "dev"
        (some {}) true none
        [("/home/u/.kube/config",
          { currentContext := "test",
            contexts := [("test", { cluster := "tc", authInfo := "tu", nspace := "nsA" }),
                         ("other", { cluster := "oc", authInfo := "ou", nspace := "nsB" })] })]).fs
        "/tmp/kconfig/session/123.yaml").getD {}).contexts
      kconfigContextName).map Context.nspace = some "nsB" ∧
    specPrecedence "" ""
      (((lookupAssoc (ReadKubeConfig "/home/u"
          [("/home/u/.kube/config",
            { currentContext := "test",
              contexts := [("test", { cluster := "tc", authInfo := "tu", nspace := "nsA" }),
                           ("other", { cluster := "oc", authInfo := "ou", nspace := "nsB" })] })]
          (some "")).contexts
        (ReadKubeConfig "/home/u"
          [("/home/u/.kube/config",
            { currentContext := "test",
              contexts := [("test", { cluster := "tc", authInfo := "tu", nspace := "nsA" }),
                           ("other", { cluster := "oc", authInfo := "ou", nspace := "nsB" })] })]
          (some "")).currentContext).getD {}).nspace) "" = "nsA" ∧
    ("nsB" : String) ≠ "nsA" := by
  decide

/-- C2 (amended): each effective field is chosen by the precedence
override > nickname > base value > built-in default, where the base value is
the base_kubeconfig preference for the kubeconfig path (default
HOME/.kube/config), the base file's current context for the context name, and
the values recorded in the chosen (effective) context for the namespace and
the user (default empty). -/
theorem claim2_precedence_amended
    (kconfig : Kconfig) (homeDir tempName nickname : String) (o : KconfigOptions)
    (env : Option String) (fs : FS) (defn : String) (nickOpts : KconfigOptions) (exec : String)
    (contextDefn : Context) (r : CreateOk)
    (hdefn : lookupAssoc kconfig.nicknames nickname = some defn)
    (hparse : parseNicknameDefinition kconfig defn = .ok (nickOpts, exec))
    (hname : effectiveContextName (ReadKubeConfig homeDir fs
      (some (effectiveSearchPath kconfig nickOpts o))) nickOpts o ≠ "")
    (hctx : lookupAssoc (ReadKubeConfig homeDir fs
      (some (effectiveSearchPath kconfig nickOpts o))).contexts
      (effectiveContextName (ReadKubeConfig homeDir fs
        (some (effectiveSearchPath kconfig nickOpts o))) nickOpts o) = some contextDefn)
    (hok : (CreateLocalKubectlConfigFile kconfig homeDir tempName nickname (some o) true
      env fs).outcome = .ok r) :
    effectiveSearchPath kconfig nickOpts o =
      specPrecedence o.kubeConfig nickOpts.kubeConfig kconfig.preferences.baseKubeconfig "" ∧
    effectiveContextName (ReadKubeConfig homeDir fs
        (some (effectiveSearchPath kconfig nickOpts o))) nickOpts o =
      specPrecedence o.context nickOpts.context
        (ReadKubeConfig homeDir fs
          (some (effectiveSearchPath kconfig nickOpts o))).currentContext "" ∧
    r.newKubeconfigEnvVar = r.localConfigFilename ++ String.singleton pathListSeparator ++
      specPrecedence o.kubeConfig nickOpts.kubeConfig kconfig.preferences.baseKubeconfig
        (homeDir ++ "/.kube/config") ∧
    (needNewContext nickOpts o →
        lookupAssoc ((lookupFS (CreateLocalKubectlConfigFile kconfig homeDir tempName nickname
            (some o) true env fs).fs r.localConfigFilename).getD {}).contexts
            kconfigContextName =
          some { contextDefn with
                 locationOfOrigin := ""
                 nspace := specPrecedence o.nspace nickOpts.nspace contextDefn.nspace ""
                 authInfo := specPrecedence o.user nickOpts.user contextDefn.authInfo "" }) := by
  have hshape := createLocal_ok_shape kconfig homeDir tempName nickname o env fs defn nickOpts
    exec contextDefn hdefn hparse hname hctx
  rw [hshape] at hok
  dsimp only at hok
  injection hok with h
  refine ⟨effectiveSearchPath_spec kconfig nickOpts o,
    effectiveContextName_spec _ nickOpts o, ?_, ?_⟩
  · rw [← h]
    dsimp only
    rw [effectiveSearchPath_with_default]
    unfold specPrecedence
    rfl
  · intro hnn
    rw [hshape, ← h]
    dsimp only
    unfold newConfigContent
    rw [if_pos hnn]
    dsimp only
    rw [modifyConfig_single _ _ _ _ (newSessionContext_loc contextDefn nickOpts o) fs,
      lookupFS_writeFS_self]
    simp only [Option.getD_some]
    rw [lookupAssoc_upsert_self, newSessionContext_fields,
      specPrecedence_empty_default, specPrecedence_empty_default]

/-- Witness for claim2_precedence_amended at a concrete invocation (nickname
sets context and user; the namespace falls back to the chosen context). -/
theorem claim2_witness :
    ({ newKubeconfigEnvVar := "/tmp/kconfig/session/123.yaml:/home/u/.kube/config",
       kubectlExecutable := "kubectl", overridesDescription := "",
       localConfigFilename := "/tmp/kconfig/session/123.yaml" } : CreateOk).newKubeconfigEnvVar =
      ({ newKubeconfigEnvVar := "/tmp/kconfig/session/123.yaml:/home/u/.kube/config",
         kubectlExecutable := "kubectl", overridesDescription := "",
         localConfigFilename := "/tmp/kconfig/session/123.yaml" } : CreateOk).localConfigFilename ++
        String.singleton pathListSeparator ++
        specPrecedence "" "" "" ("/home/u" ++ "/.kube/config") ∧
    lookupAssoc ((lookupFS (CreateLocalKubectlConfigFile
        { nicknames := [("dev", "--context other --user u2")] } "/home/u" "123" "dev"
        (some {}) true none
        [("/home/u/.kube/config",
          { currentContext := "test",
            contexts := [("test", { cluster := "tc", authInfo := "tu", nspace := "nsA" }),
                         ("other", { cluster := "oc", authInfo := "ou", nspace := "nsB" })] })]).fs
        ({ newKubeconfigEnvVar := "/tmp/kconfig/session/123.yaml:/home/u/.kube/config",
           kubectlExecutable := "kubectl", overridesDescription := "",
           localConfigFilename :=
             "/tmp/kconfig/session/123.yaml" } : CreateOk).localConfigFilename).getD {}).contexts
      kconfigContextName =
      some { cluster := "oc", authInfo := specPrecedence "" "u2" "ou" "",
             nspace := specPrecedence "" "" "nsB" "", locationOfOrigin := "" } := by
  have hmain := claim2_precedence_amended
    { nicknames := [("dev", "--context other --user u2")] } "/home/u" "123" "dev" {} none
    [("/home/u/.kube/config",
      { currentContext := "test",
        contexts := [("test", { cluster := "tc", authInfo := "tu", nspace := "nsA" }),
                     ("other", { cluster := "oc", authInfo := "ou", nspace := "nsB" })] })]
    "--context other --user u2" { context := "other", user := "u2" } "kubectl"
    { cluster := "oc", authInfo := "ou", nspace := "nsB",
      locationOfOrigin := "/home/u/.kube/config" }
    { newKubeconfigEnvVar := "/tmp/kconfig/session/123.yaml:/home/u/.kube/config",
      kubectlExecutable := "kubectl", overridesDescription := "",
      localConfigFilename := "/tmp/kconfig/session/123.yaml" }
    (by decide) (by decide) (by decide) (by decide) (by decide)
  exact ⟨hmain.2.2.1, hmain.2.2.2 (by decide)⟩

theorem getExisting_empty_of_no_sessionDir (s : String)
    (hpre : strHasPrefix s kconfigTmpSessionDir = false) :
    GetExistingSessionLocalFilename s = "" := by
  unfold GetExistingSessionLocalFilename
  simp [hpre]

/-- Counterexample to C7 as stated: koff invoked with the non-empty KUBECONFIG
value /home/u/.kube/config removes nothing — the filesystem is unchanged even
though removing the named file would have changed it. -/
theorem claim7_counterexample :
    (koffProcessor {} (some "/home/u/.kube/config") "" false
        [("/home/u/.kube/config", {})]).fs = [("/home/u/.kube/config", {})] ∧
    ("/home/u/.kube/config" : String) ≠ "" ∧
    removeFS [("/home/u/.kube/config", {})] "/home/u/.kube/config" ≠
      [("/home/u/.kube/config", {})] := by
  decide

/-- C7 (amended): when koff is invoked with a non-empty KUBECONFIG value, it
removes the file named by the first entry of that value exactly when the value
starts with the session temp directory (the first entry is the prefix up to the
first path-list separator); otherwise it removes nothing. -/
theorem claim7_koff_removal_amended (kconfig : Kconfig) (prev s : String) (fs : FS)
    (hs : s ≠ "") :
    (strHasPrefix s kconfigTmpSessionDir = true →
        (koffProcessor kconfig (some s) prev false fs).fs =
          removeFS fs ⟨s.data.takeWhile fun c => decide (c ≠ pathListSeparator)⟩) ∧
    (strHasPrefix s kconfigTmpSessionDir = false →
        (koffProcessor kconfig (some s) prev false fs).fs = fs) := by
  constructor
  · intro hpre
    have hgx := getExisting_eq_takeWhile s hs hpre
    have hne := (getExisting_spec s hs hpre).2.2
    unfold koffProcessor
    dsimp only
    simp only [Option.getD_some]
    rw [if_neg hs]
    dsimp only
    rw [hgx] at hne ⊢
    rw [if_pos hne]
    rfl
  · intro hpre
    have hgx := getExisting_empty_of_no_sessionDir s hpre
    unfold koffProcessor
    dsimp only
    simp only [Option.getD_some]
    rw [if_neg hs]
    dsimp only
    rw [hgx, if_neg (not_not_intro rfl)]

/-- Witness for claim7_koff_removal_amended: a session-prefixed value leads to
removal of its first entry; a non-session value leaves the filesystem alone. -/
theorem claim7_witness :
    (koffProcessor {} (some "/tmp/kconfig/session/a.yaml:/base") "" false
        [("/tmp/kconfig/session/a.yaml", {})]).fs =
      removeFS [("/tmp/kconfig/session/a.yaml", {})]
        ⟨("/tmp/kconfig/session/a.yaml:/base" : String).data.takeWhile
          fun c => decide (c ≠ pathListSeparator)⟩ ∧
    (koffProcessor {} (some "/base") "" false [("/base", {})]).fs = [("/base", {})] :=
  ⟨(claim7_koff_removal_amended {} "" "/tmp/kconfig/session/a.yaml:/base"
      [("/tmp/kconfig/session/a.yaml", {})] (by decide)).1 (by decide),
   (claim7_koff_removal_amended {} "" "/base" [("/base", {})] (by decide)).2 (by decide)⟩

/-- Counterexample to C9 as stated: when the removal of the session file fails,
koff reports the error on standard error yet the process still exits with
status 0 (koffProcessor contains no os.Exit call). -/
theorem claim9_counterexample :
    (koffProcessor {} (some "/tmp/kconfig/session/a.yaml:/b") "" true
        [("/tmp/kconfig/session/a.yaml", {})]).stderrLines ≠ [] ∧
    (koffProcessor {} (some "/tmp/kconfig/session/a.yaml:/b") "" true
        [("/tmp/kconfig/session/a.yaml", {})]).exitCode = 0 := by
  decide

/-- C9 (amended): every failure during resolution (kset and the one-shot mode)
is fatal with the message on standard error and leaves the filesystem
untouched, with no retry; but koff is an exception: it always exits 0, and when
removing the session file fails it reports the error on standard error while
still emitting its shell output and leaving the filesystem unchanged. -/
theorem claim9_failures_amended :
    (∀ (kconfig : Kconfig) (homeDir tempName nickname : String)
        (kconfigOptions : Option KconfigOptions) (sessionFile : Bool)
        (env : Option String) (fs : FS) (e : String),
        (CreateLocalKubectlConfigFile kconfig homeDir tempName nickname kconfigOptions
          sessionFile env fs).outcome = .fatal e →
        (CreateLocalKubectlConfigFile kconfig homeDir tempName nickname kconfigOptions
          sessionFile env fs).fs = fs) ∧
    (∀ (kconfig : Kconfig) (env : Option String) (prev : String) (removeFails : Bool)
        (fs : FS), (koffProcessor kconfig env prev removeFails fs).exitCode = 0) ∧
    (∀ (kconfig : Kconfig) (s prev : String) (fs : FS),
        s ≠ "" → GetExistingSessionLocalFilename s ≠ "" →
        (koffProcessor kconfig (some s) prev true fs).stderrLines ≠ [] ∧
        (koffProcessor kconfig (some s) prev true fs).stdoutLines ≠ [] ∧
        (koffProcessor kconfig (some s) prev true fs).fs = fs) := by
  refine ⟨?_, ?_, ?_⟩
  · intro kconfig homeDir tempName nickname kconfigOptions sessionFile env fs e
    rcases hn : lookupAssoc kconfig.nicknames nickname with _ | defn
    · unfold CreateLocalKubectlConfigFile lookupKconfigNickname
      cases sessionFile <;> rcases kconfigOptions with _ | o <;>
        first
          | (intro _; rfl)
          | (rw [hn]; intro _; rfl)
    · rcases hp : parseNicknameDefinition kconfig defn with e2 | ⟨nickOpts, exec⟩
      · unfold CreateLocalKubectlConfigFile lookupKconfigNickname
        cases sessionFile <;> rcases kconfigOptions with _ | o <;>
          first
            | (intro _; rfl)
            | (rw [hn]; try dsimp only; try rw [hp]; intro _; rfl)
      · unfold CreateLocalKubectlConfigFile lookupKconfigNickname
        cases sessionFile <;> rcases kconfigOptions with _ | o <;>
          first
            | (intro _; rfl)
            | (rw [hn]; try dsimp only; try rw [hp]; try dsimp only;
               split <;> first
                 | (intro _; rfl)
                 | (split <;> first
                     | (intro _; rfl)
                     | (intro hcontra; exact absurd hcontra (by simp))))
  · intro kconfig env prev removeFails fs
    unfold koffProcessor
    dsimp only
    split <;> rfl
  · intro kconfig s prev fs hs hex
    unfold koffProcessor
    dsimp only
    simp only [Option.getD_some]
    rw [if_neg hs]
    dsimp only
    rw [if_pos hex]
    refine ⟨by simp, by simp, rfl⟩

theorem createLocal_fatal_fs_unchanged (kconfig : Kconfig)
    (homeDir tempName nickname : String) (kconfigOptions : Option KconfigOptions)
    (sessionFile : Bool) (env : Option String) (fs : FS) (e : String)
    (hfatal : (CreateLocalKubectlConfigFile kconfig homeDir tempName nickname kconfigOptions
      sessionFile env fs).outcome = .fatal e) :
    (CreateLocalKubectlConfigFile kconfig homeDir tempName nickname kconfigOptions
      sessionFile env fs).fs = fs := by
  revert hfatal
  rcases hn : lookupAssoc kconfig.nicknames nickname with _ | defn
  · unfold CreateLocalKubectlConfigFile lookupKconfigNickname
    cases sessionFile <;> rcases kconfigOptions with _ | o <;>
      first
        | (intro _; rfl)
        | (rw [hn]; intro _; rfl)
  · rcases hp : parseNicknameDefinition kconfig defn with e2 | ⟨nickOpts, exec⟩
    · unfold CreateLocalKubectlConfigFile lookupKconfigNickname
      cases sessionFile <;> rcases kconfigOptions with _ | o <;>
        first
          | (intro _; rfl)
          | (rw [hn]; try dsimp only; try rw [hp]; intro _; rfl)
    · unfold CreateLocalKubectlConfigFile lookupKconfigNickname
      cases sessionFile <;> rcases kconfigOptions with _ | o <;>
        first
          | (intro _; rfl)
          | (rw [hn]; try dsimp only; try rw [hp]; try dsimp only;
             split <;> first
               | (intro _; rfl)
               | (split <;> first
                   | (intro _; rfl)
                   | (intro hcontra; exact absurd hcontra (by simp))))

/-- Counterexample to C8 as stated: nickname "foo" is defined (with an empty
definition string), the base file has a current context and that context
exists, yet resolution fails — with the parse error "The kconfig specification
is empty", a failure condition the claim does not list. -/
theorem claim8_counterexample :
    (CreateLocalKubectlConfigFile { nicknames := [("foo", "")] } "/home/u" "t" "foo"
        (some {}) true none
        [("/home/u/.kube/config",
          { currentContext := "test", contexts := [("test", {})] })]).outcome =
      .fatal "The kconfig specification is empty" ∧
    lookupAssoc ({ nicknames := [("foo", "")] } : Kconfig).nicknames "foo" ≠ none ∧
    (ReadKubeConfig "/home/u"
        [("/home/u/.kube/config",
          { currentContext := "test", contexts := [("test", {})] })]
        (some "")).currentContext ≠ "" ∧
    lookupAssoc (ReadKubeConfig "/home/u"
        [("/home/u/.kube/config",
          { currentContext := "test", contexts := [("test", {})] })] (some "")).contexts
      (ReadKubeConfig "/home/u"
        [("/home/u/.kube/config",
          { currentContext := "test", contexts := [("test", {})] })]
        (some "")).currentContext ≠ none := by
  decide

theorem createLocal_fatal_iff_session (kconfig : Kconfig) (homeDir tempName nickname : String)
    (o : KconfigOptions) (env : Option String) (fs : FS) :
    (∃ e, (CreateLocalKubectlConfigFile kconfig homeDir tempName nickname (some o) true
        env fs).outcome = .fatal e) ↔
      (lookupAssoc kconfig.nicknames nickname = none ∨
        ∃ defn, lookupAssoc kconfig.nicknames nickname = some defn ∧
          ((∃ e, parseNicknameDefinition kconfig defn = .error e) ∨
            ∃ nickOpts exec, parseNicknameDefinition kconfig defn = .ok (nickOpts, exec) ∧
              (effectiveContextName (ReadKubeConfig homeDir fs
                  (some (effectiveSearchPath kconfig nickOpts o))) nickOpts o = "" ∨
                lookupAssoc (ReadKubeConfig homeDir fs
                    (some (effectiveSearchPath kconfig nickOpts o))).contexts
                  (effectiveContextName (ReadKubeConfig homeDir fs
                    (some (effectiveSearchPath kconfig nickOpts o))) nickOpts o) = none))) := by
  rcases hn : lookupAssoc kconfig.nicknames nickname with _ | defn
  · apply iff_of_true
    · refine ⟨"Nickname \"" ++ nickname ++ "\" is not defined.", ?_⟩
      unfold CreateLocalKubectlConfigFile lookupKconfigNickname
      rw [hn]
    · exact Or.inl rfl
  · rcases hp : parseNicknameDefinition kconfig defn with e2 | ⟨nickOpts, exec⟩
    · apply iff_of_true
      · refine ⟨e2, ?_⟩
        unfold CreateLocalKubectlConfigFile lookupKconfigNickname
        rw [hn]
        dsimp only
        rw [hp]
      · exact Or.inr ⟨defn, rfl, Or.inl ⟨e2, hp⟩⟩
    · by_cases hb : effectiveContextName (ReadKubeConfig homeDir fs
        (some (effectiveSearchPath kconfig nickOpts o))) nickOpts o = ""
      · apply iff_of_true
        · refine ⟨"There is no current context in search path: " ++
            effectiveSearchPath kconfig nickOpts o, ?_⟩
          unfold CreateLocalKubectlConfigFile lookupKconfigNickname
          rw [hn]
          dsimp only
          rw [hp]
          dsimp only
          rw [if_pos hb]
        · exact Or.inr ⟨defn, rfl, Or.inr ⟨nickOpts, exec, hp, Or.inl hb⟩⟩
      · rcases hc : lookupAssoc (ReadKubeConfig homeDir fs
            (some (effectiveSearchPath kconfig nickOpts o))).contexts
            (effectiveContextName (ReadKubeConfig homeDir fs
              (some (effectiveSearchPath kconfig nickOpts o))) nickOpts o) with _ | cd
        · apply iff_of_true
          · refine ⟨"Context \"" ++ effectiveContextName (ReadKubeConfig homeDir fs
              (some (effectiveSearchPath kconfig nickOpts o))) nickOpts o ++
              "\" doesn't exist.", ?_⟩
            unfold CreateLocalKubectlConfigFile lookupKconfigNickname
            rw [hn]
            dsimp only
            rw [hp]
            dsimp only
            rw [if_neg hb, hc]
          · exact Or.inr ⟨defn, rfl, Or.inr ⟨nickOpts, exec, hp, Or.inr hc⟩⟩
        · apply iff_of_false
          · rintro ⟨e, he⟩
            rw [createLocal_ok_shape kconfig homeDir tempName nickname o env fs defn nickOpts
              exec cd hn hp hb hc] at he
            dsimp only at he
            exact absurd he (by simp)
          · rintro (h1 | ⟨defn2, hd2, h2⟩)
            · exact Option.noConfusion h1
            · injection hd2 with hdd
              subst hdd
              rcases h2 with ⟨e3, he3⟩ | ⟨nickOpts2, exec2, hp2, hrest⟩
              · rw [hp] at he3
                exact Except.noConfusion he3
              · rw [hp] at hp2
                injection hp2 with hpair
                injection hpair with h4 h5
                subst h4
                subst h5
                rcases hrest with hb2 | hc2
                · exact hb hb2
                · rw [hc] at hc2
                  exact Option.noConfusion hc2

theorem createLocal_fatal_iff_oneshot (kconfig : Kconfig) (homeDir tempName nickname : String)
    (env : Option String) (fs : FS) :
    (∃ e, (CreateLocalKubectlConfigFile kconfig homeDir tempName nickname none false
        env fs).outcome = .fatal e) ↔
      (lookupAssoc kconfig.nicknames nickname = none ∨
        ∃ defn, lookupAssoc kconfig.nicknames nickname = some defn ∧
          ((∃ e, parseNicknameDefinition kconfig defn = .error e) ∨
            ∃ nickOpts exec, parseNicknameDefinition kconfig defn = .ok (nickOpts, exec) ∧
              (effectiveContextName (ReadKubeConfig homeDir fs
                  (some (effectiveSearchPath kconfig nickOpts {}))) nickOpts {} = "" ∨
                lookupAssoc (ReadKubeConfig homeDir fs
                    (some (effectiveSearchPath kconfig nickOpts {}))).contexts
                  (effectiveContextName (ReadKubeConfig homeDir fs
                    (some (effectiveSearchPath kconfig nickOpts {}))) nickOpts {}) = none))) := by
  rcases hn : lookupAssoc kconfig.nicknames nickname with _ | defn
  · apply iff_of_true
    · refine ⟨"Nickname \"" ++ nickname ++ "\" is not defined.", ?_⟩
      unfold CreateLocalKubectlConfigFile lookupKconfigNickname
      rw [hn]
    · exact Or.inl rfl
  · rcases hp : parseNicknameDefinition kconfig defn with e2 | ⟨nickOpts, exec⟩
    · apply iff_of_true
      · refine ⟨e2, ?_⟩
        unfold CreateLocalKubectlConfigFile lookupKconfigNickname
        rw [hn]
        dsimp only
        rw [hp]
      · exact Or.inr ⟨defn, rfl, Or.inl ⟨e2, hp⟩⟩
    · by_cases hb : effectiveContextName (ReadKubeConfig homeDir fs
        (some (effectiveSearchPath kconfig nickOpts {}))) nickOpts {} = ""
      · apply iff_of_true
        · refine ⟨"There is no current context in search path: " ++
            effectiveSearchPath kconfig nickOpts {}, ?_⟩
          unfold CreateLocalKubectlConfigFile lookupKconfigNickname
          rw [hn]
          dsimp only
          rw [hp]
          dsimp only
          rw [if_pos hb]
        · exact Or.inr ⟨defn, rfl, Or.inr ⟨nickOpts, exec, hp, Or.inl hb⟩⟩
      · rcases hc : lookupAssoc (ReadKubeConfig homeDir fs
            (some (effectiveSearchPath kconfig nickOpts {}))).contexts
            (effectiveContextName (ReadKubeConfig homeDir fs
              (some (effectiveSearchPath kconfig nickOpts {}))) nickOpts {}) with _ | cd
        · apply iff_of_true
          · refine ⟨"Context \"" ++ effectiveContextName (ReadKubeConfig homeDir fs
              (some (effectiveSearchPath kconfig nickOpts {}))) nickOpts {} ++
              "\" doesn't exist.", ?_⟩
            unfold CreateLocalKubectlConfigFile lookupKconfigNickname
            rw [hn]
            dsimp only
            rw [hp]
            dsimp only
            rw [if_neg hb, hc]
          · exact Or.inr ⟨defn, rfl, Or.inr ⟨nickOpts, exec, hp, Or.inr hc⟩⟩
        · apply iff_of_false
          · rintro ⟨e, he⟩
            rw [createLocal_ok_shape_oneshot kconfig homeDir tempName nickname env fs defn
              nickOpts exec cd hn hp hb hc] at he
            dsimp only at he
            exact absurd he (by simp)
          · rintro (h1 | ⟨defn2, hd2, h2⟩)
            · exact Option.noConfusion h1
            · injection hd2 with hdd
              subst hdd
              rcases h2 with ⟨e3, he3⟩ | ⟨nickOpts2, exec2, hp2, hrest⟩
              · rw [hp] at he3
                exact Except.noConfusion he3
              · rw [hp] at hp2
                injection hp2 with hpair
                injection hpair with h4 h5
                subst h4
                subst h5
                rcases hrest with hb2 | hc2
                · exact hb hb2
                · rw [hc] at hc2
                  exact Option.noConfusion hc2

/-- C8 (amended): resolution fails — fatal error message, no file content
produced — exactly when the nickname is not defined, or its definition fails to
parse (empty specification, bad flag, or unrecognized arguments), or no context
is resolvable (no current context in the base search path and none named by the
nickname or the overrides), or the named context does not exist in the base
configuration; this holds in session mode and in one-shot mode, and on every
fatal outcome the filesystem is unchanged.  OS-level I/O failures are outside
the model. -/
theorem claim8_error_conditions_amended :
    (∀ (kconfig : Kconfig) (homeDir tempName nickname : String) (o : KconfigOptions)
        (env : Option String) (fs : FS),
        (∃ e, (CreateLocalKubectlConfigFile kconfig homeDir tempName nickname (some o) true
            env fs).outcome = .fatal e) ↔
          (lookupAssoc kconfig.nicknames nickname = none ∨
            ∃ defn, lookupAssoc kconfig.nicknames nickname = some defn ∧
              ((∃ e, parseNicknameDefinition kconfig defn = .error e) ∨
                ∃ nickOpts exec, parseNicknameDefinition kconfig defn = .ok (nickOpts, exec) ∧
                  (effectiveContextName (ReadKubeConfig homeDir fs
                      (some (effectiveSearchPath kconfig nickOpts o))) nickOpts o = "" ∨
                    lookupAssoc (ReadKubeConfig homeDir fs
                        (some (effectiveSearchPath kconfig nickOpts o))).contexts
                      (effectiveContextName (ReadKubeConfig homeDir fs
                        (some (effectiveSearchPath kconfig nickOpts o))) nickOpts o) =
                      none)))) ∧
    (∀ (kconfig : Kconfig) (homeDir tempName nickname : String)
        (env : Option String) (fs : FS),
        (∃ e, (CreateLocalKubectlConfigFile kconfig homeDir tempName nickname none false
            env fs).outcome = .fatal e) ↔
          (lookupAssoc kconfig.nicknames nickname = none ∨
            ∃ defn, lookupAssoc kconfig.nicknames nickname = some defn ∧
              ((∃ e, parseNicknameDefinition kconfig defn = .error e) ∨
                ∃ nickOpts exec, parseNicknameDefinition kconfig defn = .ok (nickOpts, exec) ∧
                  (effectiveContextName (ReadKubeConfig homeDir fs
                      (some (effectiveSearchPath kconfig nickOpts {}))) nickOpts {} = "" ∨
                    lookupAssoc (ReadKubeConfig homeDir fs
                        (some (effectiveSearchPath kconfig nickOpts {}))).contexts
                      (effectiveContextName (ReadKubeConfig homeDir fs
                        (some (effectiveSearchPath kconfig nickOpts {}))) nickOpts {}) =
                      none)))) ∧
    (∀ (kconfig : Kconfig) (homeDir tempName nickname : String)
        (kconfigOptions : Option KconfigOptions) (sessionFile : Bool)
        (env : Option String) (fs : FS) (e : String),
        (CreateLocalKubectlConfigFile kconfig homeDir tempName nickname kconfigOptions
          sessionFile env fs).outcome = .fatal e →
        (CreateLocalKubectlConfigFile kconfig homeDir tempName nickname kconfigOptions
          sessionFile env fs).fs = fs) :=
  ⟨fun kconfig homeDir tempName nickname o env fs =>
      createLocal_fatal_iff_session kconfig homeDir tempName nickname o env fs,
    fun kconfig homeDir tempName nickname env fs =>
      createLocal_fatal_iff_oneshot kconfig homeDir tempName nickname env fs,
    fun kconfig homeDir tempName nickname kconfigOptions sessionFile env fs e h =>
      createLocal_fatal_fs_unchanged kconfig homeDir tempName nickname kconfigOptions
        sessionFile env fs e h⟩

/-- Witness for claim8_error_conditions_amended: an undefined nickname makes
the session-mode invocation fail, and the failing invocation leaves the
filesystem unchanged. -/
theorem claim8_witness :
    (∃ e, (CreateLocalKubectlConfigFile { nicknames := [] } "/h" "t" "nope" (some {}) true
        none []).outcome = Outcome.fatal e) ∧
    (CreateLocalKubectlConfigFile { nicknames := [] } "/h" "t" "nope" (some {}) true
        none []).fs = [] := by
  have h1 := (claim8_error_conditions_amended.1 { nicknames := [] } "/h" "t" "nope" {}
    none []).mpr (Or.inl (by decide))
  obtain ⟨e, he⟩ := h1
  exact ⟨⟨e, he⟩, claim8_error_conditions_amended.2.2 { nicknames := [] } "/h" "t" "nope"
    (some {}) true none [] e he⟩

/-- Witness for claim9_failures_amended: a failing kset leaves the filesystem
unchanged, koff exits 0, and a failing removal still reports on stderr. -/
theorem claim9_witness :
    (CreateLocalKubectlConfigFile { nicknames := [] } "/h" "t" "ghost" (some {}) true
        none []).fs = [] ∧
    (koffProcessor {} none "" false []).exitCode = 0 ∧
    (koffProcessor {} (some "/tmp/kconfig/session/a.yaml:/b") "" true []).stderrLines ≠ [] := by
  have hmain := claim9_failures_amended
  exact ⟨hmain.1 { nicknames := [] } "/h" "t" "ghost" (some {}) true none []
      "Nickname \"ghost\" is not defined." (by decide),
    hmain.2.1 {} none "" false [],
    (hmain.2.2 {} "/tmp/kconfig/session/a.yaml:/b" "" [] (by decide) (by decide)).1⟩

theorem ReadKubeConfig_some (homeDir s : String) (fs : FS) :
    ReadKubeConfig homeDir fs (some s) = loadConfig homeDir fs s := rfl

theorem loadConfig_modify_invariant (homeDir sp g : String) (new : KubeConfig) (fs : FS)
    (hloc : ∀ kv ∈ new.contexts, kv.2.locationOfOrigin = "")
    (hpre : strHasPrefix g kconfigTmpSessionDir = true)
    (hpaths : ∀ q ∈ resolvedPaths homeDir sp, strHasPrefix q kconfigTmpSessionDir = false) :
    loadConfig homeDir (ModifyConfig g new fs) sp = loadConfig homeDir fs sp := by
  apply loadConfig_congr_of_lookup
  intro q hq
  have hqg : q ≠ g := by
    intro hcontra
    rw [hcontra] at hq
    have := hpaths g hq
    rw [hpre] at this
    simp at this
  exact modifyConfig_lookup_ne g new fs q hqg hloc

theorem mem_upsertAssoc {α : Type} {l : List (String × α)} {k : String} {c : α}
    {kv : String × α} (h : kv ∈ upsertAssoc l k c) : kv = (k, c) ∨ kv ∈ l := by
  induction l with
  | nil =>
      simp [upsertAssoc] at h
      exact Or.inl h
  | cons hd tl ih =>
      obtain ⟨k0, w⟩ := hd
      by_cases hk : k0 = k
      · simp only [upsertAssoc, hk, if_pos rfl] at h
        rcases List.mem_cons.mp h with h1 | h1
        · exact Or.inl h1
        · exact Or.inr (List.mem_cons_of_mem _ h1)
      · simp only [upsertAssoc, hk, if_false] at h
        rcases List.mem_cons.mp h with h1 | h1
        · exact Or.inr (by rw [h1]; exact List.mem_cons_self _ _)
        · rcases ih h1 with h2 | h2
          · exact Or.inl h2
          · exact Or.inr (List.mem_cons_of_mem _ h2)

theorem filter_upsertAssoc_self {α : Type} (pred : String × α → Bool)
    (l : List (String × α)) (k : String) (c : α)
    (hc : pred (k, c) = true) (hl : ∀ kv ∈ l, pred kv = true) :
    List.filter pred (upsertAssoc l k c) = upsertAssoc l k c := by
  apply List.filter_eq_self.mpr
  intro kv hkv
  rcases mem_upsertAssoc hkv with h | h
  · rw [h]
    exact hc
  · exact hl kv h

theorem modifyConfig_newContent_idem (g bctx : String) (d : Context) (no o : KconfigOptions)
    (fs : FS) :
    ModifyConfig g (newConfigContent bctx d no o).1
        (ModifyConfig g (newConfigContent bctx d no o).1 fs) =
      ModifyConfig g (newConfigContent bctx d no o).1 fs := by
  unfold newConfigContent
  split
  · dsimp only
    have hc := newSessionContext_loc d no o
    rw [modifyConfig_single _ _ _ _ hc fs]
    rw [modifyConfig_single _ _ _ _ hc]
    rw [lookupFS_writeFS_self]
    simp only [Option.getD_some]
    rw [writeFS_writeFS]
    have hfil : List.filter
        (fun kv => (lookupAssoc [(kconfigContextName, (newSessionContext d no o).1)]
          kv.1).isSome)
        (upsertAssoc (List.filter
          (fun kv => (lookupAssoc [(kconfigContextName, (newSessionContext d no o).1)]
            kv.1).isSome)
          ((lookupFS fs g).getD {}).contexts) kconfigContextName (newSessionContext d no o).1) =
        upsertAssoc (List.filter
          (fun kv => (lookupAssoc [(kconfigContextName, (newSessionContext d no o).1)]
            kv.1).isSome)
          ((lookupFS fs g).getD {}).contexts) kconfigContextName (newSessionContext d no o).1 := by
      apply filter_upsertAssoc_self
      · simp [lookupAssoc]
      · intro kv hkv
        exact (List.mem_filter.mp hkv).2
    rw [hfil, upsertAssoc_upsertAssoc]
  · dsimp only
    rw [modifyConfig_pointer, modifyConfig_pointer, writeFS_writeFS]

/-- C4: re-invoking kset with exactly the same arguments, the KUBECONFIG value
produced by the first invocation, and the filesystem left by the first
invocation, writes to the same session file, returns the same values, and
leaves the filesystem — in particular the session file's contents —
byte-identical to the state after the first invocation.  Hypotheses: the random
temp-name component contains no path-list separator (os.CreateTemp names never
do), and no file on the effective base search path lies under the session temp
directory (true of any real base configuration). -/
theorem claim4_kset_idempotent
    (kconfig : Kconfig) (homeDir tempName tempName2 nickname : String) (o : KconfigOptions)
    (env : Option String) (fs : FS) (defn : String) (nickOpts : KconfigOptions) (exec : String)
    (contextDefn : Context) (r : CreateOk)
    (hdefn : lookupAssoc kconfig.nicknames nickname = some defn)
    (hparse : parseNicknameDefinition kconfig defn = .ok (nickOpts, exec))
    (hname : effectiveContextName (ReadKubeConfig homeDir fs
      (some (effectiveSearchPath kconfig nickOpts o))) nickOpts o ≠ "")
    (hctx : lookupAssoc (ReadKubeConfig homeDir fs
      (some (effectiveSearchPath kconfig nickOpts o))).contexts
      (effectiveContextName (ReadKubeConfig homeDir fs
        (some (effectiveSearchPath kconfig nickOpts o))) nickOpts o) = some contextDefn)
    (hok : (CreateLocalKubectlConfigFile kconfig homeDir tempName nickname (some o) true
      env fs).outcome = .ok r)
    (htemp : ∀ c ∈ tempName.data, c ≠ pathListSeparator)
    (hpaths : ∀ q ∈ resolvedPaths homeDir (effectiveSearchPath kconfig nickOpts o),
        strHasPrefix q kconfigTmpSessionDir = false) :
    (CreateLocalKubectlConfigFile kconfig homeDir tempName2 nickname (some o) true
        (some r.newKubeconfigEnvVar)
        (CreateLocalKubectlConfigFile kconfig homeDir tempName nickname (some o) true
          env fs).fs).outcome = .ok r ∧
    (CreateLocalKubectlConfigFile kconfig homeDir tempName2 nickname (some o) true
        (some r.newKubeconfigEnvVar)
        (CreateLocalKubectlConfigFile kconfig homeDir tempName nickname (some o) true
          env fs).fs).fs =
      (CreateLocalKubectlConfigFile kconfig homeDir tempName nickname (some o) true
        env fs).fs := by
  have hshape := createLocal_ok_shape kconfig homeDir tempName nickname o env fs defn nickOpts
    exec contextDefn hdefn hparse hname hctx
  rw [hshape] at hok
  dsimp only at hok
  injection hok with h
  have hTpre := localConfigTarget_session_prefixed nickname (env.getD "") tempName
  have hTns := (localConfigTarget_session_spec nickname (env.getD "") tempName htemp).2.1
  have hload : ReadKubeConfig homeDir
      (ModifyConfig (localConfigTarget true nickname (env.getD "") tempName)
        (newConfigContent (effectiveContextName (ReadKubeConfig homeDir fs
          (some (effectiveSearchPath kconfig nickOpts o))) nickOpts o)
          contextDefn nickOpts o).1 fs)
      (some (effectiveSearchPath kconfig nickOpts o)) =
      ReadKubeConfig homeDir fs (some (effectiveSearchPath kconfig nickOpts o)) := by
    rw [ReadKubeConfig_some, ReadKubeConfig_some]
    exact loadConfig_modify_invariant homeDir (effectiveSearchPath kconfig nickOpts o)
      (localConfigTarget true nickname (env.getD "") tempName)
      (newConfigContent (effectiveContextName (ReadKubeConfig homeDir fs
        (some (effectiveSearchPath kconfig nickOpts o))) nickOpts o)
        contextDefn nickOpts o).1 fs
      (newConfigContent_loc _ _ _ _) hTpre hpaths
  have hname2 : effectiveContextName (ReadKubeConfig homeDir
      (ModifyConfig (localConfigTarget true nickname (env.getD "") tempName)
        (newConfigContent (effectiveContextName (ReadKubeConfig homeDir fs
          (some (effectiveSearchPath kconfig nickOpts o))) nickOpts o)
          contextDefn nickOpts o).1 fs)
      (some (effectiveSearchPath kconfig nickOpts o))) nickOpts o ≠ "" := by
    rw [hload]
    exact hname
  have hctx2 : lookupAssoc (ReadKubeConfig homeDir
      (ModifyConfig (localConfigTarget true nickname (env.getD "") tempName)
        (newConfigContent (effectiveContextName (ReadKubeConfig homeDir fs
          (some (effectiveSearchPath kconfig nickOpts o))) nickOpts o)
          contextDefn nickOpts o).1 fs)
      (some (effectiveSearchPath kconfig nickOpts o))).contexts
      (effectiveContextName (ReadKubeConfig homeDir
        (ModifyConfig (localConfigTarget true nickname (env.getD "") tempName)
          (newConfigContent (effectiveContextName (ReadKubeConfig homeDir fs
            (some (effectiveSearchPath kconfig nickOpts o))) nickOpts o)
            contextDefn nickOpts o).1 fs)
        (some (effectiveSearchPath kconfig nickOpts o))) nickOpts o) = some contextDefn := by
    rw [hload]
    exact hctx
  have hshape2 := createLocal_ok_shape kconfig homeDir tempName2 nickname o
    (some r.newKubeconfigEnvVar)
    (ModifyConfig (localConfigTarget true nickname (env.getD "") tempName)
      (newConfigContent (effectiveContextName (ReadKubeConfig homeDir fs
        (some (effectiveSearchPath kconfig nickOpts o))) nickOpts o)
        contextDefn nickOpts o).1 fs)
    defn nickOpts exec contextDefn hdefn hparse hname2 hctx2
  have hT2 : localConfigTarget true nickname
      (localConfigTarget true nickname (env.getD "") tempName ++
        String.singleton pathListSeparator ++
        (if effectiveSearchPath kconfig nickOpts o = "" then homeDir ++ "/.kube/config"
         else effectiveSearchPath kconfig nickOpts o)) tempName2 =
      localConfigTarget true nickname (env.getD "") tempName := by
    have hg := getExisting_of_build (localConfigTarget true nickname (env.getD "") tempName)
      (if effectiveSearchPath kconfig nickOpts o = "" then homeDir ++ "/.kube/config"
       else effectiveSearchPath kconfig nickOpts o) hTpre hTns
    rw [localConfigTarget_session_existing _ _ _ (by
      rw [hg]
      exact strHasPrefix_ne_empty _ kconfigTmpSessionDir (by decide) hTpre)]
    exact hg
  rw [hshape]
  dsimp only
  rw [hshape2]
  dsimp only
  rw [← h]
  dsimp only
  simp only [Option.getD_some]
  rw [hload, hT2]
  exact ⟨rfl, modifyConfig_newContent_idem _ _ _ _ _ _⟩

/-- Witness for claim4_kset_idempotent at a concrete invocation. -/
theorem claim4_witness :
    (CreateLocalKubectlConfigFile { nicknames := [("dev", "--context test")] } "/home/u" "999"
        "dev" (some {}) true
        (some ({ newKubeconfigEnvVar := "/tmp/kconfig/session/123.yaml:/home/u/.kube/config",
                 kubectlExecutable := "kubectl", overridesDescription := "",
                 localConfigFilename :=
                   "/tmp/kconfig/session/123.yaml" } : CreateOk).newKubeconfigEnvVar)
        (CreateLocalKubectlConfigFile { nicknames := [("dev", "--context test")] } "/home/u"
          "123" "dev" (some {}) true none
          [("/home/u/.kube/config",
            { currentContext := "test",
              contexts := [("test",
                { cluster := "tc", authInfo := "tu", nspace := "tns" })] })]).fs).outcome =
      Outcome.ok { newKubeconfigEnvVar := "/tmp/kconfig/session/123.yaml:/home/u/.kube/config",
                   kubectlExecutable := "kubectl", overridesDescription := "",
                   localConfigFilename := "/tmp/kconfig/session/123.yaml" } ∧
    (CreateLocalKubectlConfigFile { nicknames := [("dev", "--context test")] } "/home/u" "999"
        "dev" (some {}) true
        (some ({ newKubeconfigEnvVar := "/tmp/kconfig/session/123.yaml:/home/u/.kube/config",
                 kubectlExecutable := "kubectl", overridesDescription := "",
                 localConfigFilename :=
                   "/tmp/kconfig/session/123.yaml" } : CreateOk).newKubeconfigEnvVar)
        (CreateLocalKubectlConfigFile { nicknames := [("dev", "--context test")] } "/home/u"
          "123" "dev" (some {}) true none
          [("/home/u/.kube/config",
            { currentContext := "test",
              contexts := [("test",
                { cluster := "tc", authInfo := "tu", nspace := "tns" })] })]).fs).fs =
      (CreateLocalKubectlConfigFile { nicknames := [("dev", "--context test")] } "/home/u"
        "123" "dev" (some {}) true none
        [("/home/u/.kube/config",
          { currentContext := "test",
            contexts := [("test",
              { cluster := "tc", authInfo := "tu", nspace := "tns" })] })]).fs :=
  claim4_kset_idempotent { nicknames := [("dev", "--context test")] } "/home/u" "123" "999"
    "dev" {} none
    [("/home/u/.kube/config",
      { currentContext := "test",
        contexts := [("test", { cluster := "tc", authInfo := "tu", nspace := "tns" })] })]
    "--context test" { context := "test" } "kubectl"
    { cluster := "tc", authInfo := "tu", nspace := "tns",
      locationOfOrigin := "/home/u/.kube/config" }
    { newKubeconfigEnvVar := "/tmp/kconfig/session/123.yaml:/home/u/.kube/config",
      kubectlExecutable := "kubectl", overridesDescription := "",
      localConfigFilename := "/tmp/kconfig/session/123.yaml" }
    (by decide) (by decide) (by decide) (by decide) (by decide) (by decide) (by decide)
